import Mathlib

/-!
# frafka: the kafka `Source` adapter

A shallow embedding of `source.go` (package `frafka`): the configuration
builder `initSourceKafkaConfig`, the constructor `InitSource`, the consume
loop, the acknowledgement bookkeeping and the `Stop`/`Close` lifecycle,
followed by the theorems that settle the specification's claims.

Conventions of the embedding.

* A Go `(value, error)` result is a pair of `Option`s (`none` is `nil`), or an
  `Except` where the callee is an absent helper that yields one or the other.
* A Go `panic` is `Except.error msg`.
* Effects on the broker client and on the channels are recorded, in program
  order, in a log carried by the state.
* The channels are unbuffered. In an execution a send of the consume loop is
  two steps, between which the caller's calls can come: the loop reaches the
  send and waits in it, and a receiver takes it.
-/

namespace Frafka

/-! ## Errors -/

/-- The value type `kafka.Error`: a broker error code and its text.
`kafka.ErrNoError` is code `0`. -/
structure KafkaError where
  code : Int
  str : String
  deriving DecidableEq, Repr

/-- The constant `kafka.ErrNoError`. -/
def ErrNoError : Int := 0

/-- Go `error` values that occur in `source.go`. -/
inductive GoError where
  /-- The result of `errors.New(msg)`. -/
  | new (msg : String)
  /-- A `kafka.Error` used as an `error`. -/
  | kafka (e : KafkaError)
  /-- The result of `errors.WithMessage(cause, msg)`. -/
  | withMessage (cause : GoError) (msg : String)
  /-- The sentinel `frizzle.ErrUnackedMsgsRemain`. -/
  | ErrUnackedMsgsRemain
  /-- The sentinel `frizzle.ErrAlreadyAcked`, returned by the tracker when the
  identifier is not tracked. -/
  | ErrAlreadyAcked
  deriving DecidableEq, Repr

/-- The text of an error, as `err.Error()` prints it. The texts of the two
frizzle sentinels are set in the frizzle library and are not part of
`source.go`; each is represented by the name of its sentinel. -/
def GoError.Error : GoError → String
  | .new msg => msg
  | .kafka e => e.str
  | .withMessage cause msg => msg ++ ": " ++ GoError.Error cause
  | .ErrUnackedMsgsRemain => "frizzle.ErrUnackedMsgsRemain"
  | .ErrAlreadyAcked => "frizzle.ErrAlreadyAcked"

/-! ## Broker configuration maps -/

/-- A `kafka.ConfigValue` (`interface{}`): the dynamic values that occur in
the maps of this package. -/
inductive ConfigValue where
  | int (n : Int)
  | bool (b : Bool)
  | str (s : String)
  deriving DecidableEq, Repr

/-- A `kafka.ConfigMap` (`map[string]ConfigValue`) as an association list.
Only lookups are observable; the order of the entries is not. -/
abbrev ConfigMap := List (String × ConfigValue)

/-- Map lookup `m[key]`. -/
def ConfigMap.get (m : ConfigMap) (key : String) : Option ConfigValue :=
  match m with
  | [] => none
  | (k, v) :: rest => if k = key then some v else ConfigMap.get rest key

/-- `SetKey` of `kafka.ConfigMap`: `m[key] = value`. -/
def ConfigMap.SetKey (m : ConfigMap) (key : String) (value : ConfigValue) : ConfigMap :=
  (key, value) :: m.filter (fun kv => kv.1 ≠ key)

/-- The keys of a map. -/
def ConfigMap.keys (m : ConfigMap) : List String := m.map Prod.fst

/-- The package variable `kafkaSessionTimeoutMS`. -/
def kafkaSessionTimeoutMS : Int := 6000

/-- A second, in the unit of `time.Duration` (nanoseconds). -/
def Second : Nat := 1000000000

/-- The package variable `stopCloseTimeout = 3 * time.Second`. -/
def stopCloseTimeout : Nat := 3 * Second

/-- The package variable `defaultSourceKafkaCfg`. -/
def defaultSourceKafkaCfg : ConfigMap :=
  [ ("session.timeout.ms", .int kafkaSessionTimeoutMS),
    ("go.events.channel.enable", .bool true),
    ("go.events.channel.size", .int 100),
    ("go.application.rebalance.enable", .bool true),
    ("auto.offset.reset", .str "earliest"),
    ("queued.max.messages.kbytes", .int 16384) ]

/-! ## The configuration source (viper) -/

/-- The accessors of `*viper.Viper` that `source.go` uses. -/
structure Viper where
  IsSet : String → Bool
  GetString : String → String
  GetStringSlice : String → List String

/-- Go `unicode.IsSpace`: the white space characters of Unicode. -/
def isSpace (c : Char) : Bool :=
  let n := c.toNat
  (9 ≤ n && n ≤ 13) || n = 32 || n = 133 || n = 160 || n = 5760
    || (8192 ≤ n && n ≤ 8202) || n = 8232 || n = 8233 || n = 8239 || n = 8287 || n = 12288

/-- The text of `strings.Fields`: the maximal runs of characters that are not
white space. -/
def fieldsAux : List Char → List Char → List (List Char)
  | [], cur => if cur = [] then [] else [cur.reverse]
  | c :: cs, cur =>
    if isSpace c then
      (if cur = [] then fieldsAux cs [] else cur.reverse :: fieldsAux cs [])
    else fieldsAux cs (c :: cur)

/-- Go `strings.Fields`. -/
def stringsFields (s : String) : List String :=
  (fieldsAux s.data []).map String.mk

/-- Go `strings.ToLower` on the letters A to Z; viper compares keys without
regard to case by lower-casing them. -/
def lowerKey (k : String) : String :=
  String.mk (k.data.map (fun c =>
    if 65 ≤ c.toNat ∧ c.toNat ≤ 90 then Char.ofNat (c.toNat + 32) else c))

/-- A viper instance filled by `cfg.Set(k, v)` with string values, as the
tests do: keys are compared in lower case, a key is set when it was given a
value, `GetString` returns the value (the empty string when absent) and
`GetStringSlice` casts a string to its whitespace-separated fields. Of two
values given to one key the first in the list is the one in force. -/
def viperOfStrings (vals : List (String × String)) : Viper where
  IsSet := fun k =>
    ((vals.map (fun kv => (lowerKey kv.1, kv.2))).lookup (lowerKey k)).isSome
  GetString := fun k =>
    ((vals.map (fun kv => (lowerKey kv.1, kv.2))).lookup (lowerKey k)).getD ""
  GetStringSlice := fun k =>
    stringsFields (((vals.map (fun kv => (lowerKey kv.1, kv.2))).lookup (lowerKey k)).getD "")

/-- The type of the helper `initBaseKafkaConfig(config, defaults)`, whose body
is not in `source.go`: it yields a config map or an error. -/
abbrev BaseBuilder := Viper → ConfigMap → Except GoError ConfigMap

/-- The function `initSourceKafkaConfig`, with the helper
`initBaseKafkaConfig` as the parameter `base`. The result is the Go pair
`(*kafka.ConfigMap, error)`. -/
def initSourceKafkaConfig (base : BaseBuilder) (config : Viper) :
    Option ConfigMap × Option GoError :=
  if !config.IsSet "kafka_brokers" || !config.IsSet "kafka_topics"
      || !config.IsSet "kafka_consumer_group" then
    (none, some (.new "brokers, topics and consumer_group must be set for kafka Source"))
  else
    match base config defaultSourceKafkaCfg with
    | .error err => (none, some err)
    | .ok kCfg =>
      let brokers := String.intercalate "," (config.GetStringSlice "kafka_brokers")
      let kCfg := kCfg.SetKey "bootstrap.servers" (.str brokers)
      let kCfg := kCfg.SetKey "group.id" (.str (config.GetString "kafka_consumer_group"))
      (some kCfg, none)

/-! ## The base builder -/

/-- Splits `kv` once on the first `=`: the text before it and the text after
it, or `none` when there is no `=`. -/
def splitOnceAux : List Char → List Char → Option (List Char × List Char)
  | [], _ => none
  | c :: cs, acc =>
    if c = '=' then some (acc.reverse, cs) else splitOnceAux cs (c :: acc)

/-- Go `strings.SplitN(kv, "=", 2)`, when it yields two parts. -/
def splitKeyValue (kv : String) : Option (String × String) :=
  (splitOnceAux kv.data []).map (fun p => (String.mk p.1, String.mk p.2))

/-- Overlays `over` on `m`: every entry of `over` is set in `m`, in order. -/
def ConfigMap.overlay (m over : ConfigMap) : ConfigMap :=
  over.foldl (fun acc kv => acc.SetKey kv.1 kv.2) m

/-- Sets every `key=value` token in the map; a token with no `=` is an error
(the specification does not say what such a token does, and no theorem below
depends on it). -/
def setPairs : ConfigMap → List String → Except GoError ConfigMap
  | m, [] => .ok m
  | m, tok :: rest =>
    match splitKeyValue tok with
    | none => .error (.new ("Expected key=value: " ++ tok))
    | some (k, v) => setPairs (m.SetKey k (.str v)) rest

/-- Modelled from the spec: the helper `initBaseKafkaConfig`, whose body is
not in `source.go`. It starts from the role's default map, overlays the
contents of the structured config file when `kafka_config_file` is set
(failing when the file is unreadable or malformed) and then overlays the
free-form `kafka_config` string, parsed by whitespace-separated tokens split
once on the first `=`. Reading the file is the parameter `readConfigFile`. -/
def initBaseKafkaConfig (readConfigFile : String → Except GoError ConfigMap) : BaseBuilder :=
  fun config defaults =>
    let withFile : Except GoError ConfigMap :=
      if config.IsSet "kafka_config_file" then
        match readConfigFile (config.GetString "kafka_config_file") with
        | .error err => .error err
        | .ok file => .ok (defaults.overlay file)
      else .ok defaults
    match withFile with
    | .error err => .error err
    | .ok kCfg =>
      if config.IsSet "kafka_config" then
        setPairs kCfg (stringsFields (config.GetString "kafka_config"))
      else .ok kCfg

/-- A file system on which no config file can be read. -/
def noConfigFiles : String → Except GoError ConfigMap :=
  fun path => .error (.new ("open " ++ path ++ ": no such file or directory"))

/-- The viper values of the test case "basic test" of `sourceConfigTests`. -/
def basicTestViper : Viper :=
  viperOfStrings
    [ ("kafka_brokers", "0.0.0.0:9092"),
      ("kafka_consumer_group", "cg-123"),
      ("kafka_topics", "topic.0"),
      ("kafka_config", "linger.ms=1000 receive.message.max.bytes=2000000") ]

/-- The `expectedConfig` of the test case "basic test" of `sourceConfigTests`. -/
def basicTestExpected : ConfigMap :=
  [ ("bootstrap.servers", .str "0.0.0.0:9092"),
    ("group.id", .str "cg-123"),
    ("linger.ms", .str "1000"),
    ("receive.message.max.bytes", .str "2000000"),
    ("auto.offset.reset", .str "earliest"),
    ("queued.max.messages.kbytes", .int 16384),
    ("session.timeout.ms", .int 6000),
    ("go.events.channel.enable", .bool true),
    ("go.events.channel.size", .int 100),
    ("go.application.rebalance.enable", .bool true) ]

/-- The viper values of the test case "missing required config". -/
def missingRequiredViper : Viper :=
  viperOfStrings
    [ ("kafka_compression", "snappy"),
      ("kafka_config", "linger.ms=1000 receive.message.max.bytes=2000000") ]

/-- The viper values of the test case "invalid config file". -/
def invalidFileViper : Viper :=
  viperOfStrings
    [ ("kafka_brokers", "0.0.0.0:9092"),
      ("kafka_consumer_group", "cg-123"),
      ("kafka_topics", "topic.0"),
      ("kafka_config_file", "/not/a/file/path.yaml") ]

/-! ## Messages and events -/

/-- The fields of `kafka.TopicPartition` that identify a partition. -/
structure TopicPartition where
  topic : String
  partition : Int
  offset : Int
  deriving DecidableEq, Repr

/-- A decoded `kafka.Message`. Bytes are numbers below 256; the timestamp is
the `time.Time` as a count of nanoseconds. -/
structure KafkaMessage where
  topicPartition : TopicPartition
  value : List Nat
  key : List Nat
  timestamp : Int
  deriving DecidableEq, Repr

/-- The native events `ev` read from `s.cons.Events()`, by the dynamic type
that the type switch of `consume` tests, in the order of its cases. The last
constructor stands for every dynamic type the switch does not name. -/
inductive KafkaEvent where
  | AssignedPartitions (partitions : List TopicPartition)
  | RevokedPartitions (partitions : List TopicPartition)
  | Message (k : KafkaMessage)
  | PartitionEOF (tp : TopicPartition)
  | OffsetsCommitted (error : Option GoError) (offsets : List TopicPartition)
  | Error (e : KafkaError)
  | other (description : String)
  deriving DecidableEq, Repr

/-- A `frizzle.Msg` as built by `frizzle.NewSimpleMsg`. -/
structure Msg where
  ID : String
  Data : List Nat
  Timestamp : Int
  deriving DecidableEq, Repr

/-- The constructor `frizzle.NewSimpleMsg(id, data, timestamp)`. -/
def NewSimpleMsg (id : String) (data : List Nat) (timestamp : Int) : Msg :=
  { ID := id, Data := data, Timestamp := timestamp }

/-- A `frizzle.Event` sent on the event channel: either a native event
converted to the interface by `frizzle.Event(e)`, which leaves the value as it
is, or the error event `frizzle.NewError(text)`. -/
inductive Event where
  | ofKafka (e : KafkaEvent)
  | NewError (text : String)
  deriving DecidableEq, Repr

/-! ## The unacked tracker -/

namespace common

/-- Modelled from the spec: the tracker `common.UnAcked` of the frizzle
library, whose code is not in this package. Section 4.4 gives its contract: a
mapping from message identifier to message with `add` an insert by identifier,
`remove` failing with a not-found error when the identifier is not tracked,
`count` and `list`. The mapping is a list with one entry for each identifier. -/
structure UnAcked where
  msgs : List Msg
  deriving DecidableEq, Repr

/-- Modelled from the spec: the constructor `common.NewUnAcked()` of the
tracker; nothing is tracked. -/
def NewUnAcked : UnAcked := { msgs := [] }

/-- Whether an identifier is tracked. -/
def UnAcked.has (u : UnAcked) (id : String) : Bool :=
  u.msgs.any (fun x => x.ID = id)

/-- Modelled from the spec: the tracker's `Add(m)`, an insert by identifier;
the entry for the identifier of `m` becomes `m`. -/
def UnAcked.Add (u : UnAcked) (m : Msg) : UnAcked :=
  { msgs := m :: u.msgs.filter (fun x => x.ID ≠ m.ID) }

/-- Modelled from the spec: the tracker's `Remove(m)`, which fails with the
not-found sentinel when the identifier of `m` is not tracked, and otherwise
deletes its entry. -/
def UnAcked.Remove (u : UnAcked) (m : Msg) : UnAcked × Option GoError :=
  if u.has m.ID then
    ({ msgs := u.msgs.filter (fun x => x.ID ≠ m.ID) }, none)
  else (u, some .ErrAlreadyAcked)

/-- Modelled from the spec: the tracker's `Count()`, the number of tracked
messages. -/
def UnAcked.Count (u : UnAcked) : Nat := u.msgs.length

/-- Modelled from the spec: the tracker's `List()`, the tracked messages. -/
def UnAcked.List (u : UnAcked) : List Msg := u.msgs

end common

/-! ## The Source -/

/-- The effects of a Source on its broker client and its channels. -/
inductive Action where
  /-- The call `s.cons.Assign(partitions)`. -/
  | consAssign (partitions : List TopicPartition)
  /-- The call `s.cons.Unassign()`. -/
  | consUnassign
  /-- The call `s.cons.Close()`. -/
  | consClose
  /-- The call `s.unAcked.Add(m)`. -/
  | unAckedAdd (m : Msg)
  /-- A completed send `s.msgChan <- m`. -/
  | msgSend (m : Msg)
  /-- A completed send `s.evtChan <- e`. -/
  | evtSend (e : Event)
  | closeQuitChan
  | closeDoneChan
  | closeMsgChan
  | closeEvtChan
  deriving DecidableEq, Repr

/-- The state of a `Source`. The broker client `cons` is external: the results
of its calls are parameters of the methods, and `consClosed` and `log` record
what was done to it. A channel is represented by whether it is closed; what
was sent on it is in `log`. `generated` counts the calls of `generateID`.
Both channels are unbuffered, so a send waits until a receiver takes it:
`sending` is the send (`msgSend m` or `evtSend e`) in which the consume loop
is waiting, if it is waiting in one. -/
structure Source where
  topics : List String
  unAcked : common.UnAcked
  quitChanClosed : Bool
  doneChanClosed : Bool
  msgChanClosed : Bool
  evtChanClosed : Bool
  consClosed : Bool
  generated : Nat
  log : List Action
  sending : Option Action
  deriving DecidableEq, Repr

/-- The type of the broker call `cons.GetMetadata(&topic, allTopics, timeoutMs)`. -/
abbrev GetMetadata := String → Bool → Int → Except GoError (List (String × (List Int × KafkaError)))

/-- The messages sent on the message channel, oldest first. -/
def Source.msgsSent (s : Source) : List Msg :=
  s.log.filterMap (fun a => match a with | .msgSend m => some m | _ => none)

/-- The events sent on the event channel, oldest first. -/
def Source.evtsSent (s : Source) : List Event :=
  s.log.filterMap (fun a => match a with | .evtSend e => some e | _ => none)

/-- A send `s.evtChan <- e` taken by a receiver; a send on a closed channel
panics. -/
def Source.sendEvt (s : Source) (e : Event) : Except String Source :=
  if s.evtChanClosed then .error "send on closed channel"
  else .ok { s with log := s.log ++ [Action.evtSend e] }

/-- A send `s.msgChan <- m` taken by a receiver; a send on a closed channel
panics. -/
def Source.sendMsg (s : Source) (m : Msg) : Except String Source :=
  if s.msgChanClosed then .error "send on closed channel"
  else .ok { s with log := s.log ++ [Action.msgSend m] }

/-- The method `handleMsg`. The helper `generateID`, whose body is not in
`source.go`, is the parameter `generateID`: its value at `n` is the
identifier that its call number `n` returns. -/
def Source.handleMsg (generateID : Nat → String) (s : Source) (k : KafkaMessage) :
    Except String Source :=
  let id := generateID s.generated
  let s := { s with generated := s.generated + 1 }
  let m := NewSimpleMsg id k.value k.timestamp
  let s := { s with unAcked := s.unAcked.Add m, log := s.log ++ [Action.unAckedAdd m] }
  s.sendMsg m

/-- The body of `case ev := <-s.cons.Events()` in `consume`: the type switch
on the native event. -/
def Source.consumeEvent (generateID : Nat → String) (s : Source) (ev : KafkaEvent) :
    Except String Source :=
  match ev with
  | .AssignedPartitions partitions =>
    Source.sendEvt { s with log := s.log ++ [Action.consAssign partitions] } (.ofKafka ev)
  | .RevokedPartitions _ =>
    Source.sendEvt { s with log := s.log ++ [Action.consUnassign] } (.ofKafka ev)
  | .Message k => s.handleMsg generateID k
  | .PartitionEOF _ => .ok s
  | .OffsetsCommitted error _ =>
    match error with
    | some err => s.sendEvt (.NewError err.Error)
    | none => .ok s
  | .Error _ => s.sendEvt (.ofKafka ev)
  | .other _ => s.sendEvt (.ofKafka ev)

/-- The type switch of `consume` on a native event, up to the channel send in
which the case ends: the state reached when the send is about to begin, and
that send (`none` for a case that sends nothing). For a message this is
`handleMsg` up to its last statement `s.msgChan <- m`: the identifier is
generated and the message is added to the unacked set. -/
def Source.consumeEventBegin (generateID : Nat → String) (s : Source) (ev : KafkaEvent) :
    Source × Option Action :=
  match ev with
  | .AssignedPartitions partitions =>
    ({ s with log := s.log ++ [Action.consAssign partitions] },
      some (Action.evtSend (.ofKafka ev)))
  | .RevokedPartitions _ =>
    ({ s with log := s.log ++ [Action.consUnassign] }, some (Action.evtSend (.ofKafka ev)))
  | .Message k =>
    let id := generateID s.generated
    let s := { s with generated := s.generated + 1 }
    let m := NewSimpleMsg id k.value k.timestamp
    ({ s with unAcked := s.unAcked.Add m, log := s.log ++ [Action.unAckedAdd m] },
      some (Action.msgSend m))
  | .PartitionEOF _ => (s, none)
  | .OffsetsCommitted error _ =>
    match error with
    | some err => (s, some (Action.evtSend (.NewError err.Error)))
    | none => (s, none)
  | .Error _ => (s, some (Action.evtSend (.ofKafka ev)))
  | .other _ => (s, some (Action.evtSend (.ofKafka ev)))

/-- The completion of a channel send: a receiver takes it. A send on a closed
channel panics. -/
def Source.completeSend (s : Source) : Action → Except String Source
  | .msgSend m => s.sendMsg m
  | .evtSend e => s.sendEvt e
  | _ => .ok s

/-- The case that the `select` of one iteration of `consume` takes. -/
inductive Selected where
  /-- The case `<-s.quitChan`. -/
  | quit
  /-- The case `ev := <-s.cons.Events()`. -/
  | event (ev : KafkaEvent)
  deriving DecidableEq, Repr

/-- The method `consume`, run on the cases its `select` takes, in order. On
the quit case the loop is left and the deferred `close(s.doneChan)` runs, and
what follows in the list is not looked at. When the list ends the loop is
waiting in its `select`. The result is the state and whether `consume` has
returned. -/
def Source.consume (generateID : Nat → String) (s : Source) :
    List Selected → Except String (Source × Bool)
  | [] => .ok (s, false)
  | .quit :: _ =>
    .ok ({ s with doneChanClosed := true, log := s.log ++ [Action.closeDoneChan] }, true)
  | .event ev :: rest =>
    match s.consumeEvent generateID ev with
    | .error msg => .error msg
    | .ok s => Source.consume generateID s rest

/-- The method `Ack`: the result of the tracker's `Remove`. -/
def Source.Ack (s : Source) (m : Msg) : Source × Option GoError :=
  let r := s.unAcked.Remove m
  ({ s with unAcked := r.1 }, r.2)

/-- The method `Fail`: the result of the tracker's `Remove`. -/
def Source.Fail (s : Source) (m : Msg) : Source × Option GoError :=
  let r := s.unAcked.Remove m
  ({ s with unAcked := r.1 }, r.2)

/-- The method `UnAcked`. -/
def Source.UnAcked (s : Source) : List Msg := s.unAcked.List

/-- The method `Stop`. Closing a closed channel panics. -/
def Source.Stop (s : Source) : Except String (Source × Option GoError) :=
  if s.quitChanClosed then .error "close of closed channel"
  else .ok ({ s with quitChanClosed := true, log := s.log ++ [Action.closeQuitChan] }, none)

/-- The zero value of a `kafka.TopicMetadata`, which a lookup of an absent key
in `meta.Topics` yields: no partitions and the error code `0`. -/
def zeroTopicMetadata : List Int × KafkaError := ([], { code := 0, str := "" })

/-- The entry `meta.Topics[topic]`: the partitions and the error of the topic. -/
def topicMetadata (md : List (String × (List Int × KafkaError))) (topic : String) :
    List Int × KafkaError :=
  (md.lookup topic).getD zeroTopicMetadata

/-- The loop of `Ping` over the topics: the topics whose metadata was asked
for, in order, and the error returned. -/
def pingTopics (getMetadata : GetMetadata) : List String → List String × Option GoError
  | [] => ([], none)
  | topic :: rest =>
    match getMetadata topic false kafkaSessionTimeoutMS with
    | .error err => ([topic], some err)
    | .ok md =>
      let kafkaErr := (topicMetadata md topic).2
      if kafkaErr.code ≠ ErrNoError then
        ([topic], some (.withMessage (.kafka kafkaErr) ("topic " ++ topic ++ " has error")))
      else if (topicMetadata md topic).1.length < 1 then
        ([topic], some (.new ("configured topic " ++ topic ++ " has no partitions")))
      else
        let r := pingTopics getMetadata rest
        (topic :: r.1, r.2)

/-- The method `Ping`: the topics queried and the error returned. -/
def Source.Ping (getMetadata : GetMetadata) (s : Source) : List String × Option GoError :=
  pingTopics getMetadata s.topics

/-- The method `Close`. The `select` takes the case `<-s.doneChan` when the
completion signal is closed by the time the grace period `stopCloseTimeout`
has elapsed, which is the flag `doneChanClosed` of the state the call acts on,
and the timer's case otherwise. `consClose` is what `s.cons.Close()` returns. -/
def Source.Close (s : Source) (consClose : Option GoError) :
    Except String (Source × Option GoError) :=
  if !s.doneChanClosed then
    .ok (s, some (.new "kafka source: need to call Stop() before Close()"))
  else if s.unAcked.Count > 0 then
    .ok (s, some .ErrUnackedMsgsRemain)
  else if s.msgChanClosed then .error "close of closed channel"
  else
    let s := { s with msgChanClosed := true, log := s.log ++ [Action.closeMsgChan] }
    if s.evtChanClosed then .error "close of closed channel"
    else
      let s := { s with evtChanClosed := true, log := s.log ++ [Action.closeEvtChan] }
      .ok ({ s with consClosed := true, log := s.log ++ [Action.consClose] }, consClose)

/-! ## Construction -/

/-- What a call of `kafka.NewConsumer` does: it returns a consumer, returns an
error, or panics. -/
inductive NewConsumerResult where
  | consumer
  | error (err : GoError)
  | panic (msg : String)
  deriving DecidableEq, Repr

/-- The kafka client library and the broker behind it, as `InitSource` uses
them. `NewConsumer` receives the `*kafka.ConfigMap`, `none` for `nil`. -/
structure KafkaClient where
  NewConsumer : Option ConfigMap → NewConsumerResult
  GetMetadata : GetMetadata
  SubscribeTopics : List String → Option GoError

/-- The calls `InitSource` makes, as recorded in its result. -/
inductive InitCall where
  | NewConsumer (kCfg : Option ConfigMap)
  | GetMetadata (topic : String)
  | SubscribeTopics (topics : List String)
  /-- The statement `go s.consume()`. -/
  | goConsume
  deriving DecidableEq, Repr

/-- The struct literal `&Source{...}` of `InitSource`: open channels and an
empty tracker. -/
def Source.new (topics : List String) : Source :=
  { topics := topics
    unAcked := common.NewUnAcked
    quitChanClosed := false
    doneChanClosed := false
    msgChanClosed := false
    evtChanClosed := false
    consClosed := false
    generated := 0
    log := []
    sending := none }

/-- The function `InitSource`: the calls it makes, in order, and what it
returns (`Except.error` when it panics). -/
def InitSource (kafka : KafkaClient) (base : BaseBuilder) (config : Viper) :
    List InitCall × Except String (Option Source × Option GoError) :=
  let kCfg := (initSourceKafkaConfig base config).1
  match kafka.NewConsumer kCfg with
  | .panic msg => ([.NewConsumer kCfg], .error msg)
  | .error err => ([.NewConsumer kCfg], .ok (none, some err))
  | .consumer =>
    let s := Source.new (config.GetStringSlice "kafka_topics")
    let ping := s.Ping kafka.GetMetadata
    let calls := InitCall.NewConsumer kCfg :: ping.1.map InitCall.GetMetadata
    match ping.2 with
    | some err =>
      (calls, .ok (none, some (.withMessage err "unable to retrieve kafka metadata")))
    | none =>
      match kafka.SubscribeTopics s.topics with
      | some err => (calls ++ [.SubscribeTopics s.topics], .ok (none, some err))
      | none => (calls ++ [.SubscribeTopics s.topics, .goConsume], .ok (some s, none))

/-! ## Executions -/

/-- The operations on a running Source: the steps of the consume loop and
the caller's calls. The caller's calls can come between any two steps of the
loop, also while the loop waits in a send. -/
inductive Op where
  /-- The `select` of the loop takes the given case. On the quit case the loop
  exits. On a native event the loop runs the case of the type switch up to its
  channel send and then waits in that send; a case without a send is over. -/
  | consume (sel : Selected)
  /-- A receiver takes the send in which the loop waits (a receive from
  `Receive()` or from `Events()`), and the loop is back at its `select`. -/
  | receive
  | Ack (m : Msg)
  | Fail (m : Msg)
  | Stop
  /-- A call of `Close` during which `s.cons.Close()`, if reached, returns
  `consClose`. -/
  | Close (consClose : Option GoError)
  deriving DecidableEq, Repr

/-- One operation on a state. There is no next state when the operation
panics, when the loop would take a case of its `select` after `consume` has
returned or while it waits in a send, when the quit case would be taken while
`quitChan` is open, or when a receive would take a send while the loop waits
in none. -/
def step (generateID : Nat → String) (s : Source) : Op → Option Source
  | .consume sel =>
    if s.doneChanClosed then none
    else if s.sending.isSome then none
    else
      match sel with
      | .quit =>
        if s.quitChanClosed then
          some { s with doneChanClosed := true, log := s.log ++ [Action.closeDoneChan] }
        else none
      | .event ev =>
        let r := s.consumeEventBegin generateID ev
        match r.2 with
        | none => some r.1
        | some a =>
          match r.1.completeSend a with
          | .error _ => none
          | .ok _ => some { r.1 with sending := some a }
  | .receive =>
    match s.sending with
    | none => none
    | some a =>
      match Source.completeSend { s with sending := none } a with
      | .ok s => some s
      | .error _ => none
  | .Ack m => some (s.Ack m).1
  | .Fail m => some (s.Fail m).1
  | .Stop =>
    match s.Stop with
    | .ok r => some r.1
    | .error _ => none
  | .Close consClose =>
    match s.Close consClose with
    | .ok r => some r.1
    | .error _ => none

/-- A sequence of operations from a state. -/
def run (generateID : Nat → String) (s : Source) : List Op → Option Source
  | [] => some s
  | op :: ops =>
    match step generateID s op with
    | none => none
    | some s => run generateID s ops

/-- Whether an operation is an `Ack` or a `Fail` of a message with the given
identifier. -/
def Op.settles (id : String) : Op → Bool
  | .Ack m => m.ID = id
  | .Fail m => m.ID = id
  | _ => false

/-- The order of the lifecycle: the channels are closed only after the loop has exited, and the loop has
exited only after `quitChan` was closed. -/
def Source.lifecycleOrdered (s : Source) : Prop :=
  (s.msgChanClosed = true → s.doneChanClosed = true)
    ∧ (s.evtChanClosed = true → s.doneChanClosed = true)
    ∧ (s.doneChanClosed = true → s.quitChanClosed = true)

/-- The order of delivery: the message whose send the loop waits in was added
to the unacked set, every message sent on the message channel was added to the
unacked set earlier in the log, and every tracked message has been sent on the
message channel or is the one whose send the loop waits in. -/
def Source.deliveryOrdered (s : Source) : Prop :=
  (∀ m, s.sending = some (Action.msgSend m) → Action.unAckedAdd m ∈ s.log)
    ∧ (∀ l1 l2 m, s.log = l1 ++ Action.msgSend m :: l2 → Action.unAckedAdd m ∈ l1)
    ∧ (∀ x ∈ s.unAcked.msgs, x ∈ s.msgsSent ∨ s.sending = some (Action.msgSend x))

/-! ## Test data -/

/-- A kafka client whose every call succeeds and whose topics have one
partition. -/
def lenientKafka : KafkaClient where
  NewConsumer := fun _ => .consumer
  GetMetadata := fun topic _ _ => .ok [(topic, ([0], { code := 0, str := "" }))]
  SubscribeTopics := fun _ => none

/-- A kafka client whose `NewConsumer` panics on a nil config map and
otherwise succeeds. -/
def strictKafka : KafkaClient where
  NewConsumer := fun kCfg =>
    match kCfg with
    | none => .panic "invalid memory address or nil pointer dereference"
    | some _ => .consumer
  GetMetadata := fun topic _ _ => .ok [(topic, ([0], { code := 0, str := "" }))]
  SubscribeTopics := fun _ => none

/-- An identifier generator with distinct values: call number `n` returns
`n + 1` times the letter x. -/
def unaryID (n : Nat) : String := String.mk (List.replicate (n + 1) 'x')

/-- A native message with the payload `[104, 105]`. -/
def sampleKafkaMessage : KafkaMessage :=
  { topicPartition := { topic := "topic.0", partition := 0, offset := 7 }
    value := [104, 105]
    key := []
    timestamp := 1500000000 }

/-- The message that `handleMsg` builds from `sampleKafkaMessage` as the
first delivery under `unaryID`. -/
def sampleMsg : Msg := NewSimpleMsg "x" [104, 105] 1500000000

/-- The state of a new Source whose loop has taken `sampleKafkaMessage`, added
the message to the unacked set and waits in the send on the message channel. -/
def sampleWaiting : Source :=
  { Source.new ["topic.0"] with
    unAcked := { msgs := [sampleMsg] }
    generated := 1
    log := [Action.unAckedAdd sampleMsg]
    sending := some (Action.msgSend sampleMsg) }

/-- Viper values whose free-form `kafka_config` names the two keys that the
convenience fields set. -/
def overridingViper : Viper :=
  viperOfStrings
    [ ("kafka_brokers", "a:1 b:2"),
      ("kafka_consumer_group", "cg"),
      ("kafka_topics", "t"),
      ("kafka_config", "bootstrap.servers=x:9 group.id=other linger.ms=5") ]

/-- Whether a topic passes the three checks of `Ping`: its metadata lookup
succeeds, its entry carries the no-error code, and it has at least one
partition. -/
def topicAvailable (getMetadata : GetMetadata) (topic : String) : Bool :=
  match getMetadata topic false kafkaSessionTimeoutMS with
  | .error _ => false
  | .ok md =>
    decide ((topicMetadata md topic).2.code = ErrNoError)
      && decide (1 ≤ (topicMetadata md topic).1.length)

/-- A broker that knows `topic.0` with one partition, reports `topic.1` with
the error code 3, knows `topic.2` with no partition and times out on every
other topic. -/
def sampleBroker : GetMetadata := fun topic _ _ =>
  if topic = "topic.0" then .ok [("topic.0", ([0], { code := 0, str := "" }))]
  else if topic = "topic.1" then
    .ok [("topic.1", ([], { code := 3, str := "Broker: Unknown topic or partition" }))]
  else if topic = "topic.2" then .ok [("topic.2", ([], { code := 0, str := "" }))]
  else .error (.kafka { code := -185, str := "Local: Timed out" })

/-! ## Lemmas on configuration maps -/

theorem ConfigMap.get_filter_ne (m : ConfigMap) (key k : String) (h : k ≠ key) :
    ConfigMap.get (m.filter (fun kv => kv.1 ≠ key)) k = ConfigMap.get m k := by
  induction m with
  | nil => rfl
  | cons kv rest ih =>
    obtain ⟨a, b⟩ := kv
    by_cases hak : a = key
    · have hne : ¬ a = k := fun e => h (e.symm.trans hak)
      rw [List.filter_cons_of_neg (by simpa using hak)]
      simp only [ConfigMap.get, hne, if_false]
      exact ih
    · rw [List.filter_cons_of_pos (by simpa using hak)]
      by_cases hk : a = k
      · simp only [ConfigMap.get, hk, if_true]
      · simp only [ConfigMap.get, hk, if_false]
        exact ih

theorem ConfigMap.get_SetKey_self (m : ConfigMap) (key : String) (v : ConfigValue) :
    ConfigMap.get (m.SetKey key v) key = some v := by
  simp [ConfigMap.SetKey, ConfigMap.get]

theorem ConfigMap.get_SetKey_of_ne (m : ConfigMap) (key k : String) (v : ConfigValue)
    (h : k ≠ key) : ConfigMap.get (m.SetKey key v) k = ConfigMap.get m k := by
  have hne : ¬ key = k := fun e => h e.symm
  simp only [ConfigMap.SetKey, ConfigMap.get, hne, if_false]
  exact ConfigMap.get_filter_ne m key k h

theorem ConfigMap.get_eq_none_of_not_mem (m : ConfigMap) (k : String)
    (h : k ∉ ConfigMap.keys m) : ConfigMap.get m k = none := by
  induction m with
  | nil => rfl
  | cons kv rest ih =>
    obtain ⟨a, b⟩ := kv
    simp only [ConfigMap.keys, List.map_cons, List.mem_cons, not_or] at h
    have hne : ¬ a = k := fun e => h.1 e.symm
    simp only [ConfigMap.get, hne, if_false]
    exact ih h.2

/-! ## The configuration builder -/

/-- C1: `initSourceKafkaConfig` fails exactly when a required key is missing
or the base builder fails. When one of `kafka_brokers`, `kafka_topics`,
`kafka_consumer_group` is not set, the result is a nil config and the
missing-key error whatever the base builder is (it is not consulted); when all
three are set and the base builder returns an error, the result is a nil
config and that same error; in every other case the result is a non-nil config
and no error. Hence an error is returned if and only if a key is missing or
the base builder fails, and the config is nil exactly when an error is
returned. -/
theorem initSourceKafkaConfig_fails_exactly (base : BaseBuilder) (config : Viper) :
    ((config.IsSet "kafka_brokers" = false ∨ config.IsSet "kafka_topics" = false
        ∨ config.IsSet "kafka_consumer_group" = false) →
      ∀ other : BaseBuilder, initSourceKafkaConfig other config =
        (none, some (.new "brokers, topics and consumer_group must be set for kafka Source")))
    ∧ (config.IsSet "kafka_brokers" = true → config.IsSet "kafka_topics" = true →
        config.IsSet "kafka_consumer_group" = true →
        ∀ err, base config defaultSourceKafkaCfg = .error err →
          initSourceKafkaConfig base config = (none, some err))
    ∧ (config.IsSet "kafka_brokers" = true → config.IsSet "kafka_topics" = true →
        config.IsSet "kafka_consumer_group" = true →
        ∀ m, base config defaultSourceKafkaCfg = .ok m →
          (initSourceKafkaConfig base config).1 ≠ none
            ∧ (initSourceKafkaConfig base config).2 = none)
    ∧ ((initSourceKafkaConfig base config).2 ≠ none ↔
        ((config.IsSet "kafka_brokers" = false ∨ config.IsSet "kafka_topics" = false
            ∨ config.IsSet "kafka_consumer_group" = false)
          ∨ ∃ err, base config defaultSourceKafkaCfg = .error err))
    ∧ ((initSourceKafkaConfig base config).1 = none ↔
        (initSourceKafkaConfig base config).2 ≠ none) := by
  refine ⟨?_, ?_, ?_, ?_, ?_⟩
  · intro h other
    rcases h with h | h | h <;> simp [initSourceKafkaConfig, h]
  · intro h1 h2 h3 err he
    simp [initSourceKafkaConfig, h1, h2, h3, he]
  · intro h1 h2 h3 m hm
    simp [initSourceKafkaConfig, h1, h2, h3, hm]
  · cases h1 : config.IsSet "kafka_brokers" <;> cases h2 : config.IsSet "kafka_topics" <;>
      cases h3 : config.IsSet "kafka_consumer_group" <;>
      cases hb : base config defaultSourceKafkaCfg <;>
      simp [initSourceKafkaConfig, h1, h2, h3, hb]
  · cases h1 : config.IsSet "kafka_brokers" <;> cases h2 : config.IsSet "kafka_topics" <;>
      cases h3 : config.IsSet "kafka_consumer_group" <;>
      cases hb : base config defaultSourceKafkaCfg <;>
      simp [initSourceKafkaConfig, h1, h2, h3, hb]

/-- Witness for C1: the test case "missing required config" yields the
missing-key error under a base builder that would have succeeded. -/
theorem initSourceKafkaConfig_fails_exactly_witness :
    initSourceKafkaConfig (fun _ d => .ok d) missingRequiredViper =
      (none, some (.new "brokers, topics and consumer_group must be set for kafka Source")) :=
  (initSourceKafkaConfig_fails_exactly (initBaseKafkaConfig noConfigFiles)
    missingRequiredViper).1 (Or.inl (by decide)) (fun _ d => .ok d)

theorem initBaseKafkaConfig_basicTest (readConfigFile : String → Except GoError ConfigMap) :
    initBaseKafkaConfig readConfigFile basicTestViper defaultSourceKafkaCfg =
      initBaseKafkaConfig noConfigFiles basicTestViper defaultSourceKafkaCfg := by
  have h : basicTestViper.IsSet "kafka_config_file" = false := by decide
  simp only [initBaseKafkaConfig, h]
  rfl

/-- C2: when the three required keys are set and the base builder succeeds
with the map `m` (built from the Source defaults, which are the six listed
entries), `initSourceKafkaConfig` returns `m` with `bootstrap.servers` set to
the brokers joined by commas and `group.id` set to the consumer group, whatever
`m` held for these two keys, and with every other key as in `m`. For the input
of the test case "basic test", with the base builder that overlays the
free-form `kafka_config` pairs on the defaults, the result has exactly the ten
keys of the test's expected map and the expected value at each. -/
theorem initSourceKafkaConfig_map :
    (∀ (base : BaseBuilder) (config : Viper) (m : ConfigMap),
      config.IsSet "kafka_brokers" = true → config.IsSet "kafka_topics" = true →
      config.IsSet "kafka_consumer_group" = true →
      base config defaultSourceKafkaCfg = .ok m →
      ∃ kCfg, initSourceKafkaConfig base config = (some kCfg, none)
        ∧ ConfigMap.get kCfg "bootstrap.servers" =
            some (.str (String.intercalate "," (config.GetStringSlice "kafka_brokers")))
        ∧ ConfigMap.get kCfg "group.id" =
            some (.str (config.GetString "kafka_consumer_group"))
        ∧ ∀ k, k ≠ "bootstrap.servers" → k ≠ "group.id" →
            ConfigMap.get kCfg k = ConfigMap.get m k)
    ∧ defaultSourceKafkaCfg =
        [ ("session.timeout.ms", .int 6000),
          ("go.events.channel.enable", .bool true),
          ("go.events.channel.size", .int 100),
          ("go.application.rebalance.enable", .bool true),
          ("auto.offset.reset", .str "earliest"),
          ("queued.max.messages.kbytes", .int 16384) ]
    ∧ (∀ readConfigFile : String → Except GoError ConfigMap,
        ∃ kCfg, initSourceKafkaConfig (initBaseKafkaConfig readConfigFile) basicTestViper =
            (some kCfg, none)
          ∧ (∀ k, ConfigMap.get kCfg k = ConfigMap.get basicTestExpected k)
          ∧ List.Perm (ConfigMap.keys kCfg) (ConfigMap.keys basicTestExpected)
          ∧ (ConfigMap.keys kCfg).length = 10) := by
  refine ⟨?_, rfl, ?_⟩
  · intro base config m h1 h2 h3 hm
    refine ⟨_, by simp [initSourceKafkaConfig, h1, h2, h3, hm]; rfl, ?_, ?_, ?_⟩
    · rw [ConfigMap.get_SetKey_of_ne _ _ _ _ (by decide), ConfigMap.get_SetKey_self]
    · rw [ConfigMap.get_SetKey_self]
    · intro k hk1 hk2
      rw [ConfigMap.get_SetKey_of_ne _ _ _ _ hk2, ConfigMap.get_SetKey_of_ne _ _ _ _ hk1]
  · intro readConfigFile
    have hex : ∃ kCfg, initSourceKafkaConfig (initBaseKafkaConfig noConfigFiles) basicTestViper =
            (some kCfg, none)
          ∧ (∀ k ∈ ConfigMap.keys basicTestExpected,
              ConfigMap.get kCfg k = ConfigMap.get basicTestExpected k)
          ∧ List.Perm (ConfigMap.keys kCfg) (ConfigMap.keys basicTestExpected)
          ∧ (ConfigMap.keys kCfg).length = 10 := by
      refine ⟨[ ("group.id", .str "cg-123"),
          ("bootstrap.servers", .str "0.0.0.0:9092"),
          ("receive.message.max.bytes", .str "2000000"),
          ("linger.ms", .str "1000"),
          ("session.timeout.ms", .int 6000),
          ("go.events.channel.enable", .bool true),
          ("go.events.channel.size", .int 100),
          ("go.application.rebalance.enable", .bool true),
          ("auto.offset.reset", .str "earliest"),
          ("queued.max.messages.kbytes", .int 16384) ],
        by decide, by decide, by decide, by decide⟩
    obtain ⟨kCfg, hk, hget, hperm, hlen⟩ := hex
    refine ⟨kCfg, ?_, ?_, hperm, hlen⟩
    · rw [← hk]
      simp only [initSourceKafkaConfig, initBaseKafkaConfig_basicTest readConfigFile]
    · intro k
      by_cases hmem : k ∈ ConfigMap.keys basicTestExpected
      · exact hget k hmem
      · rw [ConfigMap.get_eq_none_of_not_mem _ _ hmem,
          ConfigMap.get_eq_none_of_not_mem _ _ (fun h => hmem (hperm.mem_iff.mp h))]

/-- Witness for C2: with `kafka_config` naming `bootstrap.servers` and
`group.id`, the result still carries the broker list and the consumer group. -/
theorem initSourceKafkaConfig_map_witness :
    ∃ kCfg, initSourceKafkaConfig (initBaseKafkaConfig noConfigFiles) overridingViper =
        (some kCfg, none)
      ∧ ConfigMap.get kCfg "bootstrap.servers" = some (.str "a:1,b:2")
      ∧ ConfigMap.get kCfg "group.id" = some (.str "cg")
      ∧ ConfigMap.get kCfg "linger.ms" = some (.str "5")
      ∧ ConfigMap.get kCfg "auto.offset.reset" = some (.str "earliest") := by
  obtain ⟨kCfg, h, hb, hg, hrest⟩ :=
    initSourceKafkaConfig_map.1 (initBaseKafkaConfig noConfigFiles) overridingViper
      [ ("linger.ms", .str "5"), ("group.id", .str "other"), ("bootstrap.servers", .str "x:9"),
        ("session.timeout.ms", .int 6000),
        ("go.events.channel.enable", .bool true),
        ("go.events.channel.size", .int 100),
        ("go.application.rebalance.enable", .bool true),
        ("auto.offset.reset", .str "earliest"),
        ("queued.max.messages.kbytes", .int 16384) ]
      (by decide) (by decide) (by decide) rfl
  refine ⟨kCfg, h, ?_, ?_, ?_, ?_⟩
  · rw [hb]; decide
  · rw [hg]; decide
  · rw [hrest _ (by decide) (by decide)]; decide
  · rw [hrest _ (by decide) (by decide)]; decide

/-! ## Construction -/

theorem initSourceKafkaConfig_nil_of_error (base : BaseBuilder) (config : Viper)
    (h : (initSourceKafkaConfig base config).2 ≠ none) :
    (initSourceKafkaConfig base config).1 = none := by
  revert h
  cases h1 : config.IsSet "kafka_brokers" <;> cases h2 : config.IsSet "kafka_topics" <;>
    cases h3 : config.IsSet "kafka_consumer_group" <;>
    cases hb : base config defaultSourceKafkaCfg <;>
    simp [initSourceKafkaConfig, h1, h2, h3, hb]

theorem InitSource_first_call (kafka : KafkaClient) (base : BaseBuilder) (config : Viper)
    (h : (initSourceKafkaConfig base config).2 ≠ none) :
    (InitSource kafka base config).1.head? = some (.NewConsumer none) := by
  have hnil : (initSourceKafkaConfig base config).1 = none :=
    initSourceKafkaConfig_nil_of_error base config h
  simp only [InitSource, hnil]
  cases kafka.NewConsumer none with
  | panic msg => rfl
  | error err => rfl
  | consumer =>
    simp only []
    split
    · rfl
    · split <;> rfl

/-- When `kafka.NewConsumer`, `Ping` or `SubscribeTopics` fails, `InitSource`
returns no Source and does not start the consume loop; a Source is returned
only with no error and with the loop started. -/
theorem InitSource_source_only_on_success (kafka : KafkaClient) (base : BaseBuilder)
    (config : Viper) (calls : List InitCall) (src : Option Source) (err : Option GoError)
    (h : InitSource kafka base config = (calls, .ok (src, err))) :
    (err ≠ none → src = none ∧ InitCall.goConsume ∉ calls)
      ∧ (src ≠ none → err = none ∧ InitCall.goConsume ∈ calls) := by
  simp only [InitSource] at h
  split at h
  · simp at h
  · injection h with h1 h2
    injection h2 with h2
    injection h2 with h3 h4
    subst h1 h3 h4
    simp
  · split at h
    · injection h with h1 h2
      injection h2 with h2
      injection h2 with h3 h4
      subst h1 h3 h4
      simp
    · split at h
      · injection h with h1 h2
        injection h2 with h2
        injection h2 with h3 h4
        subst h1 h3 h4
        simp
      · injection h with h1 h2
        injection h2 with h2
        injection h2 with h3 h4
        subst h1 h3 h4
        simp

/-- C3 (the code on a failing configuration): `InitSource` does not look at
the error of `initSourceKafkaConfig`. On the test case "missing required
config", where `initSourceKafkaConfig` returns the missing-key error and a nil
config, the first call of `InitSource` is `kafka.NewConsumer` with the nil
config, for every kafka client and base builder, and that call alone decides
the outcome: `InitSource` panics when `NewConsumer` panics on nil, returns the
error of `NewConsumer` (not the configuration error) when that fails, and
returns a Source with the consume loop started when it succeeds. -/
theorem InitSource_ignores_config_error :
    (∀ (kafka : KafkaClient) (base : BaseBuilder),
        (InitSource kafka base missingRequiredViper).1.head? = some (.NewConsumer none))
    ∧ (initSourceKafkaConfig (initBaseKafkaConfig noConfigFiles) missingRequiredViper)
        = (none, some (.new "brokers, topics and consumer_group must be set for kafka Source"))
    ∧ InitSource strictKafka (initBaseKafkaConfig noConfigFiles) missingRequiredViper
        = ([.NewConsumer none], .error "invalid memory address or nil pointer dereference")
    ∧ (∀ err, InitSource { lenientKafka with NewConsumer := fun _ => .error err }
          (initBaseKafkaConfig noConfigFiles) missingRequiredViper
        = ([.NewConsumer none], .ok (none, some err)))
    ∧ InitSource lenientKafka (initBaseKafkaConfig noConfigFiles) missingRequiredViper
        = ([.NewConsumer none, .SubscribeTopics [], .goConsume],
            .ok (some (Source.new []), none)) := by
  refine ⟨?_, by decide, rfl, fun _ => rfl, rfl⟩
  intro kafka base
  refine InitSource_first_call kafka base missingRequiredViper ?_
  have hset : missingRequiredViper.IsSet "kafka_brokers" = false := by decide
  simp [initSourceKafkaConfig, hset]

/-! ## Ping -/

theorem pingTopics_append (getMetadata : GetMetadata) (pre rest : List String)
    (h : ∀ u ∈ pre, topicAvailable getMetadata u = true) :
    pingTopics getMetadata (pre ++ rest) =
      (pre ++ (pingTopics getMetadata rest).1, (pingTopics getMetadata rest).2) := by
  induction pre with
  | nil => rfl
  | cons t pre ih =>
    have ht := h t (List.mem_cons_self _ _)
    have ih := ih (fun u hu => h u (List.mem_cons_of_mem _ hu))
    simp only [topicAvailable] at ht
    simp only [List.cons_append, pingTopics]
    cases hg : getMetadata t false kafkaSessionTimeoutMS with
    | error err => simp [hg] at ht
    | ok md =>
      simp only [hg, Bool.and_eq_true, decide_eq_true_eq] at ht
      have h2 : ¬ (topicMetadata md t).1.length < 1 := by omega
      simp only [ht.1, ne_eq, not_true_eq_false, if_false, h2]
      show (t :: (pingTopics getMetadata (pre ++ rest)).1,
        (pingTopics getMetadata (pre ++ rest)).2) = _
      rw [ih]

theorem pingTopics_ok_iff (getMetadata : GetMetadata) (topics : List String) :
    (pingTopics getMetadata topics).2 = none ↔
      ∀ t ∈ topics, topicAvailable getMetadata t = true := by
  induction topics with
  | nil => simp [pingTopics]
  | cons t rest ih =>
    simp only [pingTopics, topicAvailable, List.mem_cons, forall_eq_or_imp]
    cases hg : getMetadata t false kafkaSessionTimeoutMS with
    | error err => simp
    | ok md =>
      by_cases hc : (topicMetadata md t).2.code = ErrNoError
      · by_cases hp : (topicMetadata md t).1.length < 1
        · have : ¬ 1 ≤ (topicMetadata md t).1.length := by omega
          simp [hc, hp, this]
        · have : 1 ≤ (topicMetadata md t).1.length := by omega
          simp only [hc, ne_eq, not_true_eq_false, if_false, hp, decide_True, this,
            Bool.and_self, true_and]
          exact ih
      · simp [hc]

/-- C4: `Ping` returns no error if and only if every configured topic passes
the three checks (lookup succeeds, no-error code, at least one partition), and
then it has queried every topic. Otherwise, for the first topic in configured
order that fails a check, it returns the lookup error as it is, or else the
wrapped broker-side error, or else the no-partitions error, having queried the
topics up to that one and none after it. With no topics it returns no error. -/
theorem Ping_first_failing_topic (getMetadata : GetMetadata) (s : Source) :
    ((s.Ping getMetadata).2 = none ↔ ∀ t ∈ s.topics, topicAvailable getMetadata t = true)
    ∧ ((s.Ping getMetadata).2 = none → (s.Ping getMetadata).1 = s.topics)
    ∧ (∀ pre t post, s.topics = pre ++ t :: post →
        (∀ u ∈ pre, topicAvailable getMetadata u = true) →
        (∀ err, getMetadata t false kafkaSessionTimeoutMS = .error err →
          s.Ping getMetadata = (pre ++ [t], some err))
        ∧ (∀ md, getMetadata t false kafkaSessionTimeoutMS = .ok md →
            (topicMetadata md t).2.code ≠ ErrNoError →
            s.Ping getMetadata = (pre ++ [t],
              some (.withMessage (.kafka (topicMetadata md t).2) ("topic " ++ t ++ " has error"))))
        ∧ (∀ md, getMetadata t false kafkaSessionTimeoutMS = .ok md →
            (topicMetadata md t).2.code = ErrNoError →
            (topicMetadata md t).1.length = 0 →
            s.Ping getMetadata = (pre ++ [t],
              some (.new ("configured topic " ++ t ++ " has no partitions")))))
    ∧ (s.topics = [] → s.Ping getMetadata = ([], none)) := by
  refine ⟨pingTopics_ok_iff getMetadata s.topics, ?_, ?_, ?_⟩
  · intro h
    have hall := (pingTopics_ok_iff getMetadata s.topics).mp h
    have := pingTopics_append getMetadata s.topics [] hall
    simp only [List.append_nil, pingTopics] at this
    simp [Source.Ping, this]
  · intro pre t post htop hpre
    have happ := pingTopics_append getMetadata pre (t :: post) hpre
    refine ⟨?_, ?_, ?_⟩
    · intro err he
      simp [Source.Ping, htop, happ, pingTopics, he]
    · intro md hm hc
      simp [Source.Ping, htop, happ, pingTopics, hm, hc]
    · intro md hm hc hp
      simp [Source.Ping, htop, happ, pingTopics, hm, hc, hp]
  · intro h
    simp [Source.Ping, h, pingTopics]

/-- Witness for C4: with topics `topic.0`, `topic.1`, `topic.2`, the broker-side
error of `topic.1` is returned and `topic.2` is not queried. -/
theorem Ping_first_failing_topic_witness :
    Source.Ping sampleBroker (Source.new ["topic.0", "topic.1", "topic.2"]) =
      (["topic.0", "topic.1"],
        some (.withMessage (.kafka { code := 3, str := "Broker: Unknown topic or partition" })
          "topic topic.1 has error")) :=
  ((Ping_first_failing_topic sampleBroker (Source.new ["topic.0", "topic.1", "topic.2"])).2.2.1
    ["topic.0"] "topic.1" ["topic.2"] rfl (by decide)).2.1
    [("topic.1", ([], { code := 3, str := "Broker: Unknown topic or partition" }))] rfl
    (by decide)

/-! ## The consume loop -/

theorem sendEvt_ok (s : Source) (e : Event) (h : s.evtChanClosed = false) :
    s.sendEvt e = .ok { s with log := s.log ++ [Action.evtSend e] } := by
  simp [Source.sendEvt, h]

theorem sendMsg_ok (s : Source) (m : Msg) (h : s.msgChanClosed = false) :
    s.sendMsg m = .ok { s with log := s.log ++ [Action.msgSend m] } := by
  simp [Source.sendMsg, h]

theorem handleMsg_ok (generateID : Nat → String) (s : Source) (k : KafkaMessage)
    (h : s.msgChanClosed = false) :
    s.handleMsg generateID k =
      .ok { s with
            generated := s.generated + 1
            unAcked := s.unAcked.Add (NewSimpleMsg (generateID s.generated) k.value k.timestamp)
            log := s.log ++
              [Action.unAckedAdd (NewSimpleMsg (generateID s.generated) k.value k.timestamp),
               Action.msgSend (NewSimpleMsg (generateID s.generated) k.value k.timestamp)] } := by
  simp [Source.handleMsg, Source.sendMsg, h]

/-- C9: one step of the consume loop on a native event, in a state whose
message and event channels are open, acts as the classification table says.
Partitions assigned: `Assign` with those partitions, then the event forwarded.
Partitions revoked: `Unassign`, then the event forwarded. A decoded message:
one `Msg` with the next generated identifier and the event's payload and
timestamp is added to the unacked set and then sent on the message channel,
and nothing is sent on the event channel. End of partition: nothing at all.
Offset commit: one error event with the commit error's text when it carries an
error, nothing otherwise. Broker error and any other event: the event
forwarded unchanged, as exactly one event. With distinct generated identifiers
the identifier of a message differs from every identifier generated before. -/
theorem consumeEvent_classification (generateID : Nat → String) (s : Source)
    (hmsg : s.msgChanClosed = false) (hevt : s.evtChanClosed = false) :
    (∀ partitions, s.consumeEvent generateID (.AssignedPartitions partitions) =
        .ok { s with log := s.log ++
          [Action.consAssign partitions,
           Action.evtSend (.ofKafka (.AssignedPartitions partitions))] })
    ∧ (∀ partitions, s.consumeEvent generateID (.RevokedPartitions partitions) =
        .ok { s with log := s.log ++
          [Action.consUnassign, Action.evtSend (.ofKafka (.RevokedPartitions partitions))] })
    ∧ (∀ k, s.consumeEvent generateID (.Message k) =
        .ok { s with
              generated := s.generated + 1
              unAcked := s.unAcked.Add
                (NewSimpleMsg (generateID s.generated) k.value k.timestamp)
              log := s.log ++
                [Action.unAckedAdd (NewSimpleMsg (generateID s.generated) k.value k.timestamp),
                 Action.msgSend (NewSimpleMsg (generateID s.generated) k.value k.timestamp)] })
    ∧ (∀ k s2, s.consumeEvent generateID (.Message k) = .ok s2 →
        s2.msgsSent = s.msgsSent ++ [NewSimpleMsg (generateID s.generated) k.value k.timestamp]
          ∧ s2.evtsSent = s.evtsSent)
    ∧ (Function.Injective generateID →
        ∀ j, j < s.generated → generateID j ≠ generateID s.generated)
    ∧ (∀ tp, s.consumeEvent generateID (.PartitionEOF tp) = .ok s)
    ∧ (∀ err offsets, s.consumeEvent generateID (.OffsetsCommitted (some err) offsets) =
        .ok { s with log := s.log ++ [Action.evtSend (.NewError err.Error)] })
    ∧ (∀ offsets, s.consumeEvent generateID (.OffsetsCommitted none offsets) = .ok s)
    ∧ (∀ e, s.consumeEvent generateID (.Error e) =
        .ok { s with log := s.log ++ [Action.evtSend (.ofKafka (.Error e))] })
    ∧ (∀ d, s.consumeEvent generateID (.other d) =
        .ok { s with log := s.log ++ [Action.evtSend (.ofKafka (.other d))] })
    ∧ (∀ ev s2, (∃ err offsets, ev = .OffsetsCommitted (some err) offsets) ∨ (∃ e, ev = .Error e) →
        s.consumeEvent generateID ev = .ok s2 →
        ∃ e, s2.evtsSent = s.evtsSent ++ [e] ∧ s2.msgsSent = s.msgsSent) := by
  refine ⟨?_, ?_, ?_, ?_, ?_, ?_, ?_, ?_, ?_, ?_, ?_⟩
  · intro partitions
    simp [Source.consumeEvent, Source.sendEvt, hevt]
  · intro partitions
    simp [Source.consumeEvent, Source.sendEvt, hevt]
  · intro k
    simpa [Source.consumeEvent] using handleMsg_ok generateID s k hmsg
  · intro k s2 h
    have h2 : s.consumeEvent generateID (.Message k) = s.handleMsg generateID k := rfl
    rw [h2, handleMsg_ok generateID s k hmsg] at h
    injection h with h
    subst h
    simp [Source.msgsSent, Source.evtsSent, List.filterMap_append]
  · intro hinj j hj heq
    have := hinj heq
    omega
  · intro tp
    rfl
  · intro err offsets
    simp [Source.consumeEvent, Source.sendEvt, hevt]
  · intro offsets
    rfl
  · intro e
    simp [Source.consumeEvent, Source.sendEvt, hevt]
  · intro d
    simp [Source.consumeEvent, Source.sendEvt, hevt]
  · intro ev s2 hev h
    rcases hev with ⟨err, offsets, rfl⟩ | ⟨e, rfl⟩
    · simp only [Source.consumeEvent, sendEvt_ok s _ hevt] at h
      injection h with h
      subst h
      exact ⟨.NewError err.Error,
        by simp [Source.msgsSent, Source.evtsSent, List.filterMap_append]⟩
    · simp only [Source.consumeEvent, sendEvt_ok s _ hevt] at h
      injection h with h
      subst h
      exact ⟨.ofKafka (.Error e),
        by simp [Source.msgsSent, Source.evtsSent, List.filterMap_append]⟩

/-- Witness for C9: a failed offset commit on a fresh Source puts one error
event with the error's text on the event channel. -/
theorem consumeEvent_classification_witness :
    Source.consumeEvent unaryID (Source.new ["topic.0"])
        (.OffsetsCommitted (some (.kafka { code := 27, str := "Broker: Rebalance" })) []) =
      .ok { Source.new ["topic.0"] with
            log := [Action.evtSend (.NewError "Broker: Rebalance")] } :=
  (consumeEvent_classification unaryID (Source.new ["topic.0"]) rfl rfl).2.2.2.2.2.2.1
    (.kafka { code := 27, str := "Broker: Rebalance" }) []

/-! ## Executions: what the operations keep -/

theorem consumeEvent_flags (generateID : Nat → String) (s s2 : Source) (ev : KafkaEvent)
    (h : s.consumeEvent generateID ev = .ok s2) :
    s2.quitChanClosed = s.quitChanClosed ∧ s2.doneChanClosed = s.doneChanClosed
      ∧ s2.msgChanClosed = s.msgChanClosed ∧ s2.evtChanClosed = s.evtChanClosed
      ∧ s2.consClosed = s.consClosed ∧ s2.topics = s.topics
      ∧ s.generated ≤ s2.generated := by
  cases ev with
  | Message k =>
    simp only [Source.consumeEvent, Source.handleMsg, Source.sendMsg] at h
    split at h
    · cases h
    · injection h with h
      subst h
      simp
  | PartitionEOF tp =>
    injection h with h
    subst h
    simp
  | OffsetsCommitted error offsets =>
    cases error with
    | none =>
      injection h with h
      subst h
      simp
    | some err =>
      simp only [Source.consumeEvent, Source.sendEvt] at h
      split at h
      · cases h
      · injection h with h
        subst h
        simp
  | AssignedPartitions partitions =>
    simp only [Source.consumeEvent, Source.sendEvt] at h
    split at h
    · cases h
    · injection h with h
      subst h
      simp
  | RevokedPartitions partitions =>
    simp only [Source.consumeEvent, Source.sendEvt] at h
    split at h
    · cases h
    · injection h with h
      subst h
      simp
  | Error e =>
    simp only [Source.consumeEvent, Source.sendEvt] at h
    split at h
    · cases h
    · injection h with h
      subst h
      simp
  | other d =>
    simp only [Source.consumeEvent, Source.sendEvt] at h
    split at h
    · cases h
    · injection h with h
      subst h
      simp

theorem consumeEvent_eq_begin (generateID : Nat → String) (s : Source) (ev : KafkaEvent) :
    s.consumeEvent generateID ev =
      match (s.consumeEventBegin generateID ev).2 with
      | none => .ok (s.consumeEventBegin generateID ev).1
      | some a => (s.consumeEventBegin generateID ev).1.completeSend a := by
  cases ev with
  | OffsetsCommitted error offsets => cases error <;> rfl
  | _ => rfl

theorem consumeEventBegin_flags (generateID : Nat → String) (s : Source) (ev : KafkaEvent) :
    (s.consumeEventBegin generateID ev).1.quitChanClosed = s.quitChanClosed
      ∧ (s.consumeEventBegin generateID ev).1.doneChanClosed = s.doneChanClosed
      ∧ (s.consumeEventBegin generateID ev).1.msgChanClosed = s.msgChanClosed
      ∧ (s.consumeEventBegin generateID ev).1.evtChanClosed = s.evtChanClosed
      ∧ (s.consumeEventBegin generateID ev).1.sending = s.sending := by
  cases ev with
  | OffsetsCommitted error offsets => cases error <;> simp [Source.consumeEventBegin]
  | _ => simp [Source.consumeEventBegin]

theorem completeSend_flags (s s2 : Source) (a : Action) (h : s.completeSend a = .ok s2) :
    s2.quitChanClosed = s.quitChanClosed ∧ s2.doneChanClosed = s.doneChanClosed
      ∧ s2.msgChanClosed = s.msgChanClosed ∧ s2.evtChanClosed = s.evtChanClosed
      ∧ s2.sending = s.sending ∧ s2.unAcked = s.unAcked ∧ s2.generated = s.generated
      ∧ (∃ l, s2.log = s.log ++ l) ∧ (∀ m, a = .msgSend m → s2.log = s.log ++ [a]) := by
  cases a with
  | msgSend m =>
    simp only [Source.completeSend, Source.sendMsg] at h
    split at h
    · cases h
    · injection h with h
      subst h
      exact ⟨rfl, rfl, rfl, rfl, rfl, rfl, rfl, ⟨_, rfl⟩, fun _ _ => rfl⟩
  | evtSend e =>
    simp only [Source.completeSend, Source.sendEvt] at h
    split at h
    · cases h
    · injection h with h
      subst h
      exact ⟨rfl, rfl, rfl, rfl, rfl, rfl, rfl, ⟨_, rfl⟩, fun _ hm => by cases hm⟩
  | _ =>
    injection h with h
    subst h
    exact ⟨rfl, rfl, rfl, rfl, rfl, rfl, rfl, ⟨[], by simp⟩, fun _ hm => by cases hm⟩

theorem completeSend_ok (s : Source) (a : Action) (hm : s.msgChanClosed = false)
    (he : s.evtChanClosed = false) : ∃ s2, s.completeSend a = .ok s2 := by
  cases a <;> simp [Source.completeSend, Source.sendMsg, Source.sendEvt, hm, he]

theorem with_sending_self (s : Source) (h : s.sending = none) :
    { s with sending := none } = s := by
  cases s
  simp only at h
  subst h
  rfl

theorem step_consume_event (generateID : Nat → String) (s s2 : Source) (ev : KafkaEvent)
    (h : step generateID s (.consume (.event ev)) = some s2) :
    s.doneChanClosed = false ∧ s.sending = none
      ∧ s2 = { (s.consumeEventBegin generateID ev).1 with
                sending := (s.consumeEventBegin generateID ev).2 } := by
  simp only [step] at h
  split at h
  · cases h
  · rename_i hd
    split at h
    · cases h
    · rename_i hs
      have hs2 : s.sending = none := by
        cases hsd : s.sending with
        | none => rfl
        | some a => simp [hsd] at hs
      refine ⟨by simpa using hd, hs2, ?_⟩
      split at h
      · rename_i hr
        injection h with h
        rw [← h, hr]
        exact (with_sending_self _
          ((consumeEventBegin_flags generateID s ev).2.2.2.2.trans hs2)).symm
      · rename_i a hr
        split at h
        · cases h
        · injection h with h
          rw [← h, hr]

theorem step_consume_quit (generateID : Nat → String) (s s2 : Source)
    (h : step generateID s (.consume .quit) = some s2) :
    s.doneChanClosed = false ∧ s.quitChanClosed = true ∧ s.sending = none
      ∧ s2 = { s with doneChanClosed := true, log := s.log ++ [Action.closeDoneChan] } := by
  simp only [step] at h
  split at h
  · cases h
  · rename_i hd
    split at h
    · cases h
    · rename_i hs
      have hs2 : s.sending = none := by
        cases hsd : s.sending with
        | none => rfl
        | some a => simp [hsd] at hs
      split at h
      · rename_i hq
        injection h with h
        exact ⟨by simpa using hd, hq, hs2, h.symm⟩
      · cases h

theorem step_receive (generateID : Nat → String) (s s2 : Source)
    (h : step generateID s .receive = some s2) :
    ∃ a, s.sending = some a ∧ Source.completeSend { s with sending := none } a = .ok s2 := by
  simp only [step] at h
  split at h
  · cases h
  · rename_i a ha
    split at h
    · rename_i s3 hc
      injection h with h
      exact ⟨a, ha, h ▸ hc⟩
    · cases h

theorem step_settle (generateID : Nat → String) (s s2 : Source) (m : Msg)
    (h : step generateID s (.Ack m) = some s2 ∨ step generateID s (.Fail m) = some s2) :
    s2 = { s with unAcked := (s.unAcked.Remove m).1 } := by
  rcases h with h | h
  · simp only [step, Source.Ack] at h
    injection h with h
    exact h.symm
  · simp only [step, Source.Fail] at h
    injection h with h
    exact h.symm

theorem step_Stop (generateID : Nat → String) (s s2 : Source)
    (h : step generateID s .Stop = some s2) :
    s2 = { s with quitChanClosed := true, log := s.log ++ [Action.closeQuitChan] } := by
  simp only [step, Source.Stop] at h
  split at h
  · rename_i r hr
    split at hr
    · cases hr
    · injection hr with hr
      injection h with h
      rw [← h, ← hr]
  · cases h

theorem step_Close (generateID : Nat → String) (s s2 : Source) (consClose : Option GoError)
    (h : step generateID s (.Close consClose) = some s2) :
    s2 = s ∨ (s.doneChanClosed = true
      ∧ s2 = { s with
                msgChanClosed := true, evtChanClosed := true, consClosed := true,
                log := s.log ++
                  [Action.closeMsgChan, Action.closeEvtChan, Action.consClose] }) := by
  simp only [step, Source.Close] at h
  split at h
  · rename_i r hr
    injection h with h
    subst h
    split at hr
    · injection hr with hr
      subst hr
      exact Or.inl rfl
    · rename_i hd
      split at hr
      · injection hr with hr
        subst hr
        exact Or.inl rfl
      · split at hr
        · cases hr
        · split at hr
          · cases hr
          · injection hr with hr
            subst hr
            exact Or.inr ⟨by simpa using hd, by simp⟩
  · cases h

theorem step_lifecycleOrdered (generateID : Nat → String) (s s2 : Source) (op : Op)
    (hs : s.lifecycleOrdered) (h : step generateID s op = some s2) :
    s2.lifecycleOrdered := by
  obtain ⟨h1, h2, h3⟩ := hs
  cases op with
  | consume sel =>
    cases sel with
    | quit =>
      obtain ⟨_, hq, _, rfl⟩ := step_consume_quit generateID s s2 h
      exact ⟨fun _ => rfl, fun _ => rfl, fun _ => hq⟩
    | event ev =>
      obtain ⟨_, _, rfl⟩ := step_consume_event generateID s s2 ev h
      obtain ⟨e1, e2, e3, e4, _⟩ := consumeEventBegin_flags generateID s ev
      simp only [Source.lifecycleOrdered, e1, e2, e3, e4]
      exact ⟨h1, h2, h3⟩
  | receive =>
    obtain ⟨a, _, hc⟩ := step_receive generateID s s2 h
    obtain ⟨e1, e2, e3, e4, _⟩ := completeSend_flags _ s2 a hc
    simp only [Source.lifecycleOrdered, e1, e2, e3, e4]
    exact ⟨h1, h2, h3⟩
  | Ack m =>
    rw [step_settle generateID s s2 m (Or.inl h)]
    exact ⟨h1, h2, h3⟩
  | Fail m =>
    rw [step_settle generateID s s2 m (Or.inr h)]
    exact ⟨h1, h2, h3⟩
  | Stop =>
    rw [step_Stop generateID s s2 h]
    exact ⟨h1, h2, fun _ => rfl⟩
  | Close consClose =>
    rcases step_Close generateID s s2 consClose h with rfl | ⟨hd, rfl⟩
    · exact ⟨h1, h2, h3⟩
    · exact ⟨fun _ => hd, fun _ => hd, h3⟩

theorem run_lifecycleOrdered (generateID : Nat → String) (ops : List Op) :
    ∀ s s2 : Source, s.lifecycleOrdered → run generateID s ops = some s2 →
      s2.lifecycleOrdered := by
  induction ops with
  | nil =>
    intro s s2 hs h
    simp only [run] at h
    injection h with h
    exact h ▸ hs
  | cons op ops ih =>
    intro s s2 hs h
    simp only [run] at h
    cases hst : step generateID s op with
    | none => simp [hst] at h
    | some s1 =>
      simp only [hst] at h
      exact ih s1 s2 (step_lifecycleOrdered generateID s s1 op hs hst) h

theorem new_lifecycleOrdered (topics : List String) : (Source.new topics).lifecycleOrdered := by
  simp [Source.lifecycleOrdered, Source.new]

theorem step_quitChanClosed (generateID : Nat → String) (s s2 : Source) (op : Op)
    (h : step generateID s op = some s2) (hq : s2.quitChanClosed = true) :
    s.quitChanClosed = true ∨ op = .Stop := by
  cases op with
  | consume sel =>
    cases sel with
    | quit =>
      obtain ⟨_, hq2, _⟩ := step_consume_quit generateID s s2 h
      exact Or.inl hq2
    | event ev =>
      obtain ⟨_, _, rfl⟩ := step_consume_event generateID s s2 ev h
      exact Or.inl ((consumeEventBegin_flags generateID s ev).1 ▸ hq)
  | receive =>
    obtain ⟨a, _, hc⟩ := step_receive generateID s s2 h
    obtain ⟨e1, _⟩ := completeSend_flags _ s2 a hc
    exact Or.inl (e1 ▸ hq)
  | Ack m =>
    rw [step_settle generateID s s2 m (Or.inl h)] at hq
    exact Or.inl hq
  | Fail m =>
    rw [step_settle generateID s s2 m (Or.inr h)] at hq
    exact Or.inl hq
  | Stop => exact Or.inr rfl
  | Close consClose =>
    rcases step_Close generateID s s2 consClose h with rfl | ⟨_, rfl⟩
    · exact Or.inl hq
    · exact Or.inl hq

theorem run_quitChanClosed (generateID : Nat → String) (ops : List Op) :
    ∀ s s2 : Source, run generateID s ops = some s2 → s2.quitChanClosed = true →
      s.quitChanClosed = true ∨ Op.Stop ∈ ops := by
  induction ops with
  | nil =>
    intro s s2 h hq
    simp only [run] at h
    injection h with h
    exact Or.inl (h ▸ hq)
  | cons op ops ih =>
    intro s s2 h hq
    simp only [run] at h
    cases hst : step generateID s op with
    | none => simp [hst] at h
    | some s1 =>
      simp only [hst] at h
      rcases ih s1 s2 h hq with h1 | h1
      · rcases step_quitChanClosed generateID s s1 op hst h1 with h2 | h2
        · exact Or.inl h2
        · exact Or.inr (h2 ▸ List.mem_cons_self _ _)
      · exact Or.inr (List.mem_cons_of_mem _ h1)

theorem step_msgChanClosed (generateID : Nat → String) (s s2 : Source) (op : Op)
    (h : step generateID s op = some s2) (hm : s.msgChanClosed = true) :
    s2.msgChanClosed = true := by
  cases op with
  | consume sel =>
    cases sel with
    | quit =>
      obtain ⟨_, _, _, rfl⟩ := step_consume_quit generateID s s2 h
      exact hm
    | event ev =>
      obtain ⟨_, _, rfl⟩ := step_consume_event generateID s s2 ev h
      exact (consumeEventBegin_flags generateID s ev).2.2.1.trans hm
  | receive =>
    obtain ⟨a, _, hc⟩ := step_receive generateID s s2 h
    obtain ⟨_, _, e3, _⟩ := completeSend_flags _ s2 a hc
    exact e3.trans hm
  | Ack m =>
    rw [step_settle generateID s s2 m (Or.inl h)]
    exact hm
  | Fail m =>
    rw [step_settle generateID s s2 m (Or.inr h)]
    exact hm
  | Stop =>
    rw [step_Stop generateID s s2 h]
    exact hm
  | Close consClose =>
    rcases step_Close generateID s s2 consClose h with rfl | ⟨_, rfl⟩
    · exact hm
    · rfl

theorem run_msgChanClosed (generateID : Nat → String) (ops : List Op) :
    ∀ s s2 : Source, run generateID s ops = some s2 → s.msgChanClosed = true →
      s2.msgChanClosed = true := by
  induction ops with
  | nil =>
    intro s s2 h hm
    simp only [run] at h
    injection h with h
    exact h ▸ hm
  | cons op ops ih =>
    intro s s2 h hm
    simp only [run] at h
    cases hst : step generateID s op with
    | none => simp [hst] at h
    | some s1 =>
      simp only [hst] at h
      exact ih s1 s2 h (step_msgChanClosed generateID s s1 op hst hm)

theorem consume_events (generateID : Nat → String) (evs : List KafkaEvent) :
    ∀ s : Source, s.msgChanClosed = false → s.evtChanClosed = false →
      ∃ s1, s.consume generateID (evs.map .event) = .ok (s1, false)
        ∧ s1.doneChanClosed = s.doneChanClosed
        ∧ s1.msgChanClosed = false ∧ s1.evtChanClosed = false
        ∧ ∀ rest, s.consume generateID (evs.map .event ++ .quit :: rest) =
            .ok ({ s1 with doneChanClosed := true, log := s1.log ++ [Action.closeDoneChan] },
              true) := by
  induction evs with
  | nil =>
    intro s hm he
    exact ⟨s, rfl, rfl, hm, he, fun _ => rfl⟩
  | cons ev evs ih =>
    intro s hm he
    have hok : ∃ s2, s.consumeEvent generateID ev = .ok s2 := by
      cases ev <;> simp [Source.consumeEvent, Source.sendEvt, Source.handleMsg, Source.sendMsg,
        hm, he]
      rename_i error offsets
      cases error <;> simp [he]
    obtain ⟨s2, hs2⟩ := hok
    obtain ⟨_, e2, e3, e4, _, _, _⟩ := consumeEvent_flags generateID s s2 ev hs2
    obtain ⟨s1, r1, r2, r3, r4, r5⟩ := ih s2 (e3 ▸ hm) (e4 ▸ he)
    refine ⟨s1, ?_, r2.trans e2, r3, r4, ?_⟩
    · simp only [List.map_cons, Source.consume, hs2]
      exact r1
    · intro rest
      simp only [List.map_cons, List.cons_append, Source.consume, hs2]
      exact r5 rest

/-! ## Close -/

/-- C6: `Close` on a Source whose completion signal is closed and whose unacked
set is not empty returns `ErrUnackedMsgsRemain` and leaves the whole state as
it was: both channels stay open if they were, the broker client is not closed,
the unacked set and the log are unchanged. This holds for every positive count
of remaining messages and whatever the client's close would return. -/
theorem Close_unacked_remain (s : Source) (consClose : Option GoError)
    (hdone : s.doneChanClosed = true) (hcount : 0 < s.unAcked.Count) :
    s.Close consClose = .ok (s, some .ErrUnackedMsgsRemain) := by
  simp [Source.Close, hdone, hcount]

/-- Witness for C6: one message delivered and not acknowledged, then `Stop`
and the loop's exit. -/
theorem Close_unacked_remain_witness :
    Source.Close
      { Source.new ["topic.0"] with
        unAcked := { msgs := [sampleMsg] }, quitChanClosed := true, doneChanClosed := true,
        generated := 1 } none
    = .ok ({ Source.new ["topic.0"] with
        unAcked := { msgs := [sampleMsg] }, quitChanClosed := true, doneChanClosed := true,
        generated := 1 }, some .ErrUnackedMsgsRemain) :=
  Close_unacked_remain _ none rfl (by decide)

/-- C7: `Close` on a Source whose completion signal is not closed when the
grace period `stopCloseTimeout`, which is three seconds, elapses returns the
error "kafka source: need to call Stop() before Close()" whatever the unacked
set holds, and leaves the whole state as it was: the broker client is not
closed, no channel is closed, and the unacked set is unchanged. This is the
outcome of `Close` in every state reached from a new Source by operations
among which there is no `Stop`. -/
theorem Close_before_Stop (s : Source) (consClose : Option GoError)
    (hdone : s.doneChanClosed = false) :
    s.Close consClose =
        .ok (s, some (.new "kafka source: need to call Stop() before Close()"))
      ∧ stopCloseTimeout = 3 * Second
      ∧ (∀ (generateID : Nat → String) (topics : List String) (ops : List Op) (t : Source),
          run generateID (Source.new topics) ops = some t → Op.Stop ∉ ops →
          t.Close consClose =
            .ok (t, some (.new "kafka source: need to call Stop() before Close()"))) := by
  refine ⟨by simp [Source.Close, hdone], by simp [stopCloseTimeout], ?_⟩
  intro generateID topics ops t hrun hstop
  have hord := run_lifecycleOrdered generateID ops _ t (new_lifecycleOrdered topics) hrun
  have hd : t.doneChanClosed = false := by
    cases h : t.doneChanClosed with
    | false => rfl
    | true =>
      rcases run_quitChanClosed generateID ops _ t hrun (hord.2.2 h) with h2 | h2
      · simp [Source.new] at h2
      · exact absurd h2 hstop
  simp [Source.Close, hd]

/-- Witness for C7: a fresh Source on which `Stop` was not called. -/
theorem Close_before_Stop_witness :
    Source.Close (Source.new ["topic.0"]) none =
      .ok (Source.new ["topic.0"],
        some (.new "kafka source: need to call Stop() before Close()")) :=
  (Close_before_Stop (Source.new ["topic.0"]) none rfl).1

/-- C8: `Close` on a Source whose completion signal is closed, whose unacked
set is empty and whose channels are open (no `Close` has succeeded before)
closes the message channel, then the event channel, then the broker client,
and returns exactly what the client's close returned. A second `Close` right
after it panics on closing the closed message channel, and in no state reached
from the closed Source does a `Close` return without an error. -/
theorem Close_succeeds_once (s : Source) (consClose : Option GoError)
    (hdone : s.doneChanClosed = true) (hcount : s.unAcked.Count = 0)
    (hmsg : s.msgChanClosed = false) (hevt : s.evtChanClosed = false) :
    s.Close consClose =
        .ok ({ s with
                msgChanClosed := true, evtChanClosed := true, consClosed := true,
                log := s.log ++ [Action.closeMsgChan, Action.closeEvtChan, Action.consClose] },
             consClose)
      ∧ (∀ again : Option GoError,
          Source.Close { s with
                msgChanClosed := true, evtChanClosed := true, consClosed := true,
                log := s.log ++ [Action.closeMsgChan, Action.closeEvtChan, Action.consClose] }
              again
            = .error "close of closed channel")
      ∧ (∀ (generateID : Nat → String) (ops : List Op) (t t2 : Source)
            (again : Option GoError),
          run generateID { s with
                msgChanClosed := true, evtChanClosed := true, consClosed := true,
                log := s.log ++ [Action.closeMsgChan, Action.closeEvtChan, Action.consClose] }
              ops = some t →
          t.Close again ≠ .ok (t2, none)) := by
  refine ⟨?_, ?_, ?_⟩
  · simp [Source.Close, hdone, hcount, hmsg, hevt]
  · intro again
    simp [Source.Close, hdone, hcount]
  · intro generateID ops t t2 again hrun
    have ht : t.msgChanClosed = true := run_msgChanClosed generateID ops _ t hrun rfl
    unfold Source.Close
    split
    · simp
    · split
      · simp
      · simp [ht]

/-- Witness for C8: a stopped Source with nothing unacked, whose client's close
returns an error. -/
theorem Close_succeeds_once_witness :
    Source.Close
      { Source.new ["topic.0"] with quitChanClosed := true, doneChanClosed := true }
      (some (.new "consumer close failed"))
    = .ok ({ Source.new ["topic.0"] with
              quitChanClosed := true, doneChanClosed := true,
              msgChanClosed := true, evtChanClosed := true, consClosed := true,
              log := [Action.closeMsgChan, Action.closeEvtChan, Action.consClose] },
           some (.new "consumer close failed")) :=
  (Close_succeeds_once
    { Source.new ["topic.0"] with quitChanClosed := true, doneChanClosed := true }
    (some (.new "consumer close failed")) rfl rfl rfl rfl).1

/-- An iteration of the loop on a native event, interleaved or not with the
caller's calls, does what `consumeEvent` does: when the case sends nothing the
state after the step is the result of `consumeEvent`, and when the loop waits
in a send the state after the receive that follows at once is. -/
theorem step_event_then_receive (generateID : Nat → String) (s s1 : Source) (ev : KafkaEvent)
    (h : step generateID s (.consume (.event ev)) = some s1) :
    (s1.sending = none → s.consumeEvent generateID ev = .ok s1)
      ∧ (∀ s2, step generateID s1 .receive = some s2 →
          s.consumeEvent generateID ev = .ok s2) := by
  obtain ⟨_, hs, rfl⟩ := step_consume_event generateID s s1 ev h
  have hsend : (s.consumeEventBegin generateID ev).1.sending = none :=
    (consumeEventBegin_flags generateID s ev).2.2.2.2.trans hs
  refine ⟨?_, ?_⟩
  · intro hnone
    simp only at hnone
    rw [consumeEvent_eq_begin, hnone, with_sending_self _ hsend]
  · intro s2 hrec
    obtain ⟨a, ha, hc⟩ := step_receive generateID _ s2 hrec
    simp only at ha
    simp only [with_sending_self _ hsend] at hc
    rw [consumeEvent_eq_begin, ha]
    exact hc

/-- C10: the consume loop exits only through the stop protocol. In every state
reached from a new Source, the completion signal is closed only if `quitChan`
is closed and `Stop` is among the operations performed. A step of the loop on
a native event of any kind leaves the loop running; from a state with open
channels the loop handles any sequence of native events without exiting or
panicking, and when its `select` then takes the quit case it exits with the
close of the completion signal as its last act. The quit case cannot be taken
while `quitChan` is open, and is taken as described once it is closed and the
loop is at its `select`. In every reached state in which the loop runs, both
channels are open, the loop at its `select` can take any native event, and a
loop waiting in a send goes back to its `select`, still running, when the send
is taken; while it waits in a send it takes no case of its `select`. -/
theorem consume_exits_only_by_Stop (generateID : Nat → String) :
    (∀ (topics : List String) (ops : List Op) (s : Source),
      run generateID (Source.new topics) ops = some s → s.doneChanClosed = true →
        s.quitChanClosed = true ∧ Op.Stop ∈ ops)
    ∧ (∀ (s s2 : Source) (ev : KafkaEvent),
        step generateID s (.consume (.event ev)) = some s2 → s2.doneChanClosed = false)
    ∧ (∀ (s : Source) (evs : List KafkaEvent),
        s.msgChanClosed = false → s.evtChanClosed = false →
        ∃ s1, s.consume generateID (evs.map .event) = .ok (s1, false)
          ∧ s1.doneChanClosed = s.doneChanClosed
          ∧ ∀ rest, s.consume generateID (evs.map .event ++ .quit :: rest) =
              .ok ({ s1 with doneChanClosed := true, log := s1.log ++ [Action.closeDoneChan] },
                true))
    ∧ (∀ s : Source, s.quitChanClosed = false → step generateID s (.consume .quit) = none)
    ∧ (∀ s : Source, s.quitChanClosed = true → s.doneChanClosed = false → s.sending = none →
        step generateID s (.consume .quit) =
          some { s with doneChanClosed := true, log := s.log ++ [Action.closeDoneChan] })
    ∧ (∀ (topics : List String) (ops : List Op) (s : Source),
        run generateID (Source.new topics) ops = some s → s.doneChanClosed = false →
        s.msgChanClosed = false ∧ s.evtChanClosed = false
          ∧ (s.sending = none → ∀ ev : KafkaEvent,
              ∃ s2, step generateID s (.consume (.event ev)) = some s2)
          ∧ (∀ a, s.sending = some a →
              ∃ s2, step generateID s .receive = some s2 ∧ s2.sending = none
                ∧ s2.doneChanClosed = false ∧ s2.quitChanClosed = s.quitChanClosed))
    ∧ (∀ (s : Source) (sel : Selected), s.sending ≠ none →
        step generateID s (.consume sel) = none)
    ∧ (∀ (s s1 : Source) (ev : KafkaEvent),
        step generateID s (.consume (.event ev)) = some s1 →
        (s1.sending = none → s.consumeEvent generateID ev = .ok s1)
          ∧ (∀ s2, step generateID s1 .receive = some s2 →
              s.consumeEvent generateID ev = .ok s2 ∧ s2.doneChanClosed = false)) := by
  refine ⟨?_, ?_, ?_, ?_, ?_, ?_, ?_, ?_⟩
  · intro topics ops s hrun hdone
    have hord := run_lifecycleOrdered generateID ops _ s (new_lifecycleOrdered topics) hrun
    have hq := hord.2.2 hdone
    refine ⟨hq, ?_⟩
    rcases run_quitChanClosed generateID ops _ s hrun hq with h | h
    · simp [Source.new] at h
    · exact h
  · intro s s2 ev h
    obtain ⟨hd, _, rfl⟩ := step_consume_event generateID s s2 ev h
    exact (consumeEventBegin_flags generateID s ev).2.1.trans hd
  · intro s evs hm he
    obtain ⟨s1, r1, r2, _, _, r5⟩ := consume_events generateID evs s hm he
    exact ⟨s1, r1, r2, r5⟩
  · intro s hq
    simp only [step]
    split
    · rfl
    · split
      · rfl
      · simp [hq]
  · intro s hq hd hs
    simp [step, hq, hd, hs]
  · intro topics ops s hrun hdone
    have hord := run_lifecycleOrdered generateID ops _ s (new_lifecycleOrdered topics) hrun
    have hm : s.msgChanClosed = false := by
      cases h : s.msgChanClosed with
      | false => rfl
      | true => have := hord.1 h; simp [hdone] at this
    have he : s.evtChanClosed = false := by
      cases h : s.evtChanClosed with
      | false => rfl
      | true => have := hord.2.1 h; simp [hdone] at this
    refine ⟨hm, he, ?_, ?_⟩
    · intro hs ev
      obtain ⟨e1, e2, e3, e4, e5⟩ := consumeEventBegin_flags generateID s ev
      simp only [step, hdone, hs, Option.isSome_none, Bool.false_eq_true, if_false]
      cases hr : (s.consumeEventBegin generateID ev).2 with
      | none => exact ⟨_, rfl⟩
      | some a =>
        obtain ⟨s3, hs3⟩ := completeSend_ok (s.consumeEventBegin generateID ev).1 a
          (e3.trans hm) (e4.trans he)
        simp only [hs3]
        exact ⟨_, rfl⟩
    · intro a ha
      obtain ⟨s3, hs3⟩ := completeSend_ok { s with sending := none } a hm he
      obtain ⟨e1, e2, _, _, e5, _⟩ := completeSend_flags _ s3 a hs3
      refine ⟨s3, by simp [step, ha, hs3], e5, e2.trans hdone, e1⟩
  · intro s sel hs
    cases hsd : s.sending with
    | none => exact absurd hsd hs
    | some a =>
      simp only [step, hsd, Option.isSome_some, if_true]
      split <;> rfl
  · intro s s1 ev h
    obtain ⟨h1, h2⟩ := step_event_then_receive generateID s s1 ev h
    refine ⟨h1, fun s2 hrec => ⟨h2 s2 hrec, ?_⟩⟩
    obtain ⟨hd, _, _⟩ := step_consume_event generateID s s1 ev h
    obtain ⟨_, e2, _⟩ := consumeEvent_flags generateID s s2 ev (h2 s2 hrec)
    exact e2.trans hd

/-- Witness for C10: a message is taken and received, then `Stop`, then the
loop's exit; the completion signal is closed and `Stop` is among the
operations. -/
theorem consume_exits_only_by_Stop_witness :
    run unaryID (Source.new ["topic.0"])
        [.consume (.event (.Message sampleKafkaMessage)), .receive, .Stop, .consume .quit] =
      some { Source.new ["topic.0"] with
             unAcked := { msgs := [sampleMsg] }
             quitChanClosed := true
             doneChanClosed := true
             generated := 1
             log := [Action.unAckedAdd sampleMsg, Action.msgSend sampleMsg,
                     Action.closeQuitChan, Action.closeDoneChan] }
    ∧ Op.Stop ∈ [Op.consume (.event (.Message sampleKafkaMessage)), Op.receive, Op.Stop,
        Op.consume .quit] :=
  ⟨by decide,
    ((consume_exits_only_by_Stop unaryID).1 ["topic.0"]
      [.consume (.event (.Message sampleKafkaMessage)), .receive, .Stop, .consume .quit]
      { Source.new ["topic.0"] with
             unAcked := { msgs := [sampleMsg] }
             quitChanClosed := true
             doneChanClosed := true
             generated := 1
             log := [Action.unAckedAdd sampleMsg, Action.msgSend sampleMsg,
                     Action.closeQuitChan, Action.closeDoneChan] }
      (by decide) rfl).2⟩

/-! ## The unacked set -/

theorem common.UnAcked.mem_Add_self (u : common.UnAcked) (m : Msg) : m ∈ (u.Add m).msgs := by
  simp [common.UnAcked.Add]

theorem common.UnAcked.mem_Add_of_ne (u : common.UnAcked) (m x : Msg) (hx : x ∈ u.msgs)
    (hne : x.ID ≠ m.ID) : x ∈ (u.Add m).msgs := by
  simp [common.UnAcked.Add, hx, hne]

theorem common.UnAcked.of_mem_Add (u : common.UnAcked) (m x : Msg) (hx : x ∈ (u.Add m).msgs) :
    x = m ∨ (x ∈ u.msgs ∧ x.ID ≠ m.ID) := by
  simpa [common.UnAcked.Add] using hx

theorem common.UnAcked.Remove_msgs (u : common.UnAcked) (m : Msg) :
    (u.Remove m).1.msgs = u.msgs.filter (fun x => x.ID ≠ m.ID) := by
  unfold common.UnAcked.Remove
  split
  · rfl
  · rename_i h
    simp only [common.UnAcked.has, List.any_eq_true, decide_eq_true_eq, not_exists, not_and] at h
    symm
    rw [List.filter_eq_self]
    intro x hx
    simpa using h x hx

theorem common.UnAcked.Remove_of_not_tracked (u : common.UnAcked) (m : Msg)
    (h : ∀ x ∈ u.msgs, x.ID ≠ m.ID) : u.Remove m = (u, some .ErrAlreadyAcked) := by
  have hhas : u.has m.ID = false := by
    simp only [common.UnAcked.has, List.any_eq_false, decide_eq_true_eq]
    exact h
  simp [common.UnAcked.Remove, hhas]

theorem common.UnAcked.Remove_of_tracked (u : common.UnAcked) (m x : Msg) (hx : x ∈ u.msgs)
    (hid : x.ID = m.ID) : (u.Remove m).2 = none := by
  have hhas : u.has m.ID = true := by
    simp only [common.UnAcked.has, List.any_eq_true, decide_eq_true_eq]
    exact ⟨x, hx, hid⟩
  simp [common.UnAcked.Remove, hhas]

theorem completeSend_log (s s2 : Source) (a : Action) (h : s.completeSend a = .ok s2) :
    ∃ l, s2.log = s.log ++ l ∧ (∀ y, Action.msgSend y ∈ l → l = [Action.msgSend y] ∧ a = .msgSend y)
      ∧ (∀ y, a = .msgSend y → l = [Action.msgSend y]) := by
  cases a with
  | msgSend m =>
    simp only [Source.completeSend, Source.sendMsg] at h
    split at h
    · cases h
    · injection h with h
      subst h
      refine ⟨[Action.msgSend m], rfl, ?_, ?_⟩
      · intro y hy
        simp only [List.mem_singleton] at hy
        injection hy with hy
        subst hy
        exact ⟨rfl, rfl⟩
      · intro y hy
        rw [hy]
  | evtSend e =>
    simp only [Source.completeSend, Source.sendEvt] at h
    split at h
    · cases h
    · injection h with h
      subst h
      exact ⟨[Action.evtSend e], rfl, fun y hy => by simp at hy, fun y hy => by cases hy⟩
  | _ =>
    injection h with h
    subst h
    exact ⟨[], by simp, fun y hy => by simp at hy, fun y hy => by cases hy⟩

theorem consumeEventBegin_other (generateID : Nat → String) (s : Source) (ev : KafkaEvent)
    (hev : ∀ k, ev ≠ .Message k) :
    (s.consumeEventBegin generateID ev).1.unAcked = s.unAcked
      ∧ (s.consumeEventBegin generateID ev).1.generated = s.generated
      ∧ (∃ l, (s.consumeEventBegin generateID ev).1.log = s.log ++ l
          ∧ ∀ y, Action.msgSend y ∉ l)
      ∧ ∀ y, (s.consumeEventBegin generateID ev).2 ≠ some (Action.msgSend y) := by
  cases ev with
  | Message k => exact absurd rfl (hev k)
  | OffsetsCommitted error offsets =>
    cases error <;>
      exact ⟨rfl, rfl, ⟨[], by simp [Source.consumeEventBegin], fun y hy => by simp at hy⟩,
        fun y hy => by simp [Source.consumeEventBegin] at hy⟩
  | PartitionEOF tp =>
    exact ⟨rfl, rfl, ⟨[], by simp [Source.consumeEventBegin], fun y hy => by simp at hy⟩,
      fun y hy => by simp [Source.consumeEventBegin] at hy⟩
  | AssignedPartitions partitions =>
    exact ⟨rfl, rfl, ⟨_, rfl, fun y hy => by simp at hy⟩,
      fun y hy => by simp [Source.consumeEventBegin] at hy⟩
  | RevokedPartitions partitions =>
    exact ⟨rfl, rfl, ⟨_, rfl, fun y hy => by simp at hy⟩,
      fun y hy => by simp [Source.consumeEventBegin] at hy⟩
  | Error e =>
    exact ⟨rfl, rfl, ⟨[], by simp [Source.consumeEventBegin], fun y hy => by simp at hy⟩,
      fun y hy => by simp [Source.consumeEventBegin] at hy⟩
  | other d =>
    exact ⟨rfl, rfl, ⟨[], by simp [Source.consumeEventBegin], fun y hy => by simp at hy⟩,
      fun y hy => by simp [Source.consumeEventBegin] at hy⟩

/-- What one operation does to the unacked set, the identifier counter, the
log and the send the loop waits in. Either the loop takes a message, adds it
and waits in its send; or the caller settles a message; or the operation
leaves the unacked set as it is, and a message appears on the message channel
only as the taking of the send the loop waited in. -/
theorem step_effect (generateID : Nat → String) (s s2 : Source) (op : Op)
    (h : step generateID s op = some s2) :
    (∃ k, op = .consume (.event (.Message k))
        ∧ s.sending = none
        ∧ s2.unAcked = s.unAcked.Add (NewSimpleMsg (generateID s.generated) k.value k.timestamp)
        ∧ s2.generated = s.generated + 1
        ∧ s2.log = s.log ++
            [Action.unAckedAdd (NewSimpleMsg (generateID s.generated) k.value k.timestamp)]
        ∧ s2.sending = some
            (Action.msgSend (NewSimpleMsg (generateID s.generated) k.value k.timestamp)))
    ∨ (∃ m, (op = .Ack m ∨ op = .Fail m) ∧ s2.unAcked = (s.unAcked.Remove m).1
        ∧ s2.generated = s.generated ∧ s2.log = s.log ∧ s2.sending = s.sending)
    ∨ ((∀ id, op.settles id = false) ∧ s2.unAcked = s.unAcked
        ∧ s2.generated = s.generated
        ∧ (∃ l, s2.log = s.log ++ l
            ∧ ∀ y, Action.msgSend y ∈ l →
                l = [Action.msgSend y] ∧ s.sending = some (Action.msgSend y))
        ∧ (∀ x, s.sending = some (Action.msgSend x) →
            x ∈ s2.msgsSent ∨ s2.sending = some (Action.msgSend x))
        ∧ (∀ x, s2.sending = some (Action.msgSend x) →
            s.sending = some (Action.msgSend x))) := by
  cases op with
  | consume sel =>
    cases sel with
    | quit =>
      obtain ⟨_, _, _, rfl⟩ := step_consume_quit generateID s s2 h
      exact Or.inr (Or.inr ⟨fun _ => rfl, rfl, rfl,
        ⟨_, rfl, fun y hy => by simp at hy⟩, fun x hx => Or.inr hx, fun x hx => hx⟩)
    | event ev =>
      obtain ⟨_, hs, rfl⟩ := step_consume_event generateID s s2 ev h
      by_cases hev : ∃ k, ev = .Message k
      · obtain ⟨k, rfl⟩ := hev
        exact Or.inl ⟨k, rfl, hs, rfl, rfl, rfl, rfl⟩
      · have hev2 : ∀ k, ev ≠ .Message k := fun k hk => hev ⟨k, hk⟩
        obtain ⟨hu, hg, ⟨l, hl, hno⟩, hsend⟩ := consumeEventBegin_other generateID s ev hev2
        refine Or.inr (Or.inr ⟨fun _ => rfl, hu, hg, ⟨l, hl, fun y hy => absurd hy (hno y)⟩,
          ?_, ?_⟩)
        · intro x hx
          rw [hs] at hx
          cases hx
        · intro x hx
          exact absurd hx (hsend x)
  | receive =>
    obtain ⟨a, ha, hc⟩ := step_receive generateID s s2 h
    obtain ⟨_, _, _, _, e5, e6, e7, _, _⟩ := completeSend_flags _ s2 a hc
    obtain ⟨l, hl, hl2, hl3⟩ := completeSend_log _ s2 a hc
    refine Or.inr (Or.inr ⟨fun _ => rfl, e6, e7, ⟨l, hl, ?_⟩, ?_, ?_⟩)
    · intro y hy
      obtain ⟨h1, h2⟩ := hl2 y hy
      exact ⟨h1, by rw [ha, h2]⟩
    · intro x hx
      left
      rw [ha] at hx
      injection hx with hx
      have := hl3 x hx
      simp only at hl
      simp [Source.msgsSent, hl, this]
    · intro x hx
      rw [e5] at hx
      cases hx
  | Ack m =>
    rw [step_settle generateID s s2 m (Or.inl h)]
    exact Or.inr (Or.inl ⟨m, Or.inl rfl, rfl, rfl, rfl, rfl⟩)
  | Fail m =>
    rw [step_settle generateID s s2 m (Or.inr h)]
    exact Or.inr (Or.inl ⟨m, Or.inr rfl, rfl, rfl, rfl, rfl⟩)
  | Stop =>
    rw [step_Stop generateID s s2 h]
    exact Or.inr (Or.inr ⟨fun _ => rfl, rfl, rfl,
      ⟨_, rfl, fun y hy => by simp at hy⟩, fun x hx => Or.inr hx, fun x hx => hx⟩)
  | Close consClose =>
    rcases step_Close generateID s s2 consClose h with rfl | ⟨_, rfl⟩
    · exact Or.inr (Or.inr ⟨fun _ => rfl, rfl, rfl,
        ⟨[], by simp, fun y hy => by simp at hy⟩, fun x hx => Or.inr hx, fun x hx => hx⟩)
    · exact Or.inr (Or.inr ⟨fun _ => rfl, rfl, rfl,
        ⟨_, rfl, fun y hy => by simp at hy⟩, fun x hx => Or.inr hx, fun x hx => hx⟩)

theorem run_cons (generateID : Nat → String) (s s3 : Source) (op : Op) (ops : List Op)
    (h : run generateID s (op :: ops) = some s3) :
    ∃ s2, step generateID s op = some s2 ∧ run generateID s2 ops = some s3 := by
  simp only [run] at h
  cases hst : step generateID s op with
  | none => simp [hst] at h
  | some s2 => exact ⟨s2, rfl, by simpa [hst] using h⟩

/-- A tracked message whose identifier was generated stays tracked while no
`Ack` or `Fail` names its identifier. -/
theorem run_stays_listed (generateID : Nat → String) (hinj : Function.Injective generateID)
    (m : Msg) (j : Nat) (hid : m.ID = generateID j) (ops : List Op) :
    ∀ s s3 : Source, m ∈ s.unAcked.msgs → j < s.generated →
      run generateID s ops = some s3 → (∀ op ∈ ops, op.settles m.ID = false) →
      m ∈ s3.unAcked.msgs := by
  induction ops with
  | nil =>
    intro s s3 hm _ hrun _
    simp only [run] at hrun
    injection hrun with hrun
    exact hrun ▸ hm
  | cons op ops ih =>
    intro s s3 hm hj hrun hset
    obtain ⟨s2, hst, hrest⟩ := run_cons generateID s s3 op ops hrun
    have hset2 : ∀ o ∈ ops, o.settles m.ID = false :=
      fun o ho => hset o (List.mem_cons_of_mem _ ho)
    have hop := hset op (List.mem_cons_self _ _)
    rcases step_effect generateID s s2 op hst with
      ⟨k, _, _, hu, hg, _⟩ | ⟨m2, hop2, hu, hg, _⟩ | ⟨_, hu, hg, _⟩
    · refine ih s2 s3 ?_ (by omega) hrest hset2
      rw [hu]
      refine common.UnAcked.mem_Add_of_ne _ _ _ hm ?_
      intro heq
      have : generateID j = generateID s.generated := by
        rw [← hid, heq]; rfl
      have := hinj this
      omega
    · refine ih s2 s3 ?_ (by omega) hrest hset2
      rw [hu, common.UnAcked.Remove_msgs]
      have hne : m2.ID ≠ m.ID := by
        rcases hop2 with rfl | rfl <;> simpa [Op.settles] using hop
      simp only [List.mem_filter, decide_eq_true_eq]
      exact ⟨hm, fun e => hne e.symm⟩
    · exact ih s2 s3 (hu ▸ hm) (by omega) hrest hset2

/-- An identifier that was generated and is not tracked does not become tracked
again. -/
theorem run_stays_absent (generateID : Nat → String) (hinj : Function.Injective generateID)
    (j : Nat) (ops : List Op) :
    ∀ s s3 : Source, (∀ x ∈ s.unAcked.msgs, x.ID ≠ generateID j) → j < s.generated →
      run generateID s ops = some s3 → ∀ x ∈ s3.unAcked.msgs, x.ID ≠ generateID j := by
  induction ops with
  | nil =>
    intro s s3 hab _ hrun
    simp only [run] at hrun
    injection hrun with hrun
    exact hrun ▸ hab
  | cons op ops ih =>
    intro s s3 hab hj hrun
    obtain ⟨s2, hst, hrest⟩ := run_cons generateID s s3 op ops hrun
    rcases step_effect generateID s s2 op hst with
      ⟨k, _, _, hu, hg, _⟩ | ⟨m2, _, hu, hg, _⟩ | ⟨_, hu, hg, _⟩
    · refine ih s2 s3 ?_ (by omega) hrest
      intro x hx
      rw [hu] at hx
      rcases common.UnAcked.of_mem_Add _ _ _ hx with rfl | ⟨hx2, _⟩
      · intro heq
        have : generateID s.generated = generateID j := heq
        have := hinj this
        omega
      · exact hab x hx2
    · refine ih s2 s3 ?_ (by omega) hrest
      intro x hx
      rw [hu, common.UnAcked.Remove_msgs] at hx
      exact hab x (List.mem_of_mem_filter hx)
    · exact ih s2 s3 (hu ▸ hab) (by omega) hrest

/-- Once an `Ack` or `Fail` names a generated identifier, it is not tracked at
the end of the run. -/
theorem run_settled_absent (generateID : Nat → String) (hinj : Function.Injective generateID)
    (j : Nat) (ops : List Op) :
    ∀ s s3 : Source, j < s.generated → run generateID s ops = some s3 →
      (∃ op ∈ ops, op.settles (generateID j) = true) →
      ∀ x ∈ s3.unAcked.msgs, x.ID ≠ generateID j := by
  induction ops with
  | nil =>
    intro s s3 _ _ hex
    obtain ⟨op, hop, _⟩ := hex
    cases hop
  | cons op ops ih =>
    intro s s3 hj hrun hex
    obtain ⟨s2, hst, hrest⟩ := run_cons generateID s s3 op ops hrun
    by_cases hop : op.settles (generateID j) = true
    · rcases step_effect generateID s s2 op hst with
        ⟨k, hk, _⟩ | ⟨m2, hop2, hu, hg, _⟩ | ⟨hno, _⟩
      · subst hk
        simp [Op.settles] at hop
      · have hid : m2.ID = generateID j := by
          rcases hop2 with rfl | rfl <;> simpa [Op.settles] using hop
        refine run_stays_absent generateID hinj j ops s2 s3 ?_ (by omega) hrest
        intro x hx
        rw [hu, common.UnAcked.Remove_msgs] at hx
        have := (List.mem_filter.mp hx).2
        simpa [hid] using this
      · rw [hno] at hop
        cases hop
    · have hex2 : ∃ o ∈ ops, o.settles (generateID j) = true := by
        obtain ⟨o, ho, hs⟩ := hex
        rcases List.mem_cons.mp ho with rfl | ho2
        · exact absurd hs hop
        · exact ⟨o, ho2, hs⟩
      have hg : s.generated ≤ s2.generated := by
        rcases step_effect generateID s s2 op hst with
          ⟨_, _, _, _, hg, _⟩ | ⟨_, _, _, hg, _⟩ | ⟨_, _, hg, _⟩ <;> omega
      exact ih s2 s3 (by omega) hrest hex2

theorem log_order_append (log l : List Action)
    (hP : ∀ l1 l2 m, log = l1 ++ Action.msgSend m :: l2 → Action.unAckedAdd m ∈ l1)
    (hl : ∀ y, Action.msgSend y ∈ l → l = [Action.msgSend y] ∧ Action.unAckedAdd y ∈ log) :
    ∀ l1 l2 m, log ++ l = l1 ++ Action.msgSend m :: l2 → Action.unAckedAdd m ∈ l1 := by
  intro l1 l2 m h
  rcases List.append_eq_append_iff.mp h with ⟨a, ha1, ha2⟩ | ⟨c, hc1, hc2⟩
  · have hmem : Action.msgSend m ∈ l := by
      rw [ha2]
      simp
    rw [ha1]
    exact List.mem_append_left _ (hl m hmem).2
  · cases c with
    | nil =>
      have hmem : Action.msgSend m ∈ l := by
        simp only [List.nil_append] at hc2
        rw [← hc2]
        simp
      simp only [List.append_nil] at hc1
      rw [← hc1]
      exact (hl m hmem).2
    | cons c cs =>
      simp only [List.cons_append, List.cons.injEq] at hc2
      rw [← hc2.1] at hc1
      exact hP l1 cs m hc1

theorem msgsSent_of_log_append (s s2 : Source) (l : List Action) (hl : s2.log = s.log ++ l)
    (x : Msg) (hx : x ∈ s.msgsSent) : x ∈ s2.msgsSent := by
  simp only [Source.msgsSent, hl, List.filterMap_append, List.mem_append]
  exact Or.inl hx

theorem step_deliveryOrdered (generateID : Nat → String) (s s2 : Source) (op : Op)
    (hs : s.deliveryOrdered) (h : step generateID s op = some s2) :
    s2.deliveryOrdered := by
  obtain ⟨hW, hP, hT⟩ := hs
  rcases step_effect generateID s s2 op h with
    ⟨k, _, hsn, hu, _, hl, hsd⟩ | ⟨m2, _, hu, _, hl, hsd⟩ | ⟨_, hu, _, ⟨l, hl, hl2⟩, hf, hb⟩
  · refine ⟨?_, ?_, ?_⟩
    · intro m hm
      rw [hsd] at hm
      injection hm with hm
      injection hm with hm
      rw [hl, ← hm]
      simp
    · rw [hl]
      exact log_order_append s.log _ hP (fun y hy => by simp at hy)
    · intro x hx
      rw [hu] at hx
      rcases common.UnAcked.of_mem_Add _ _ _ hx with rfl | ⟨hx2, _⟩
      · exact Or.inr hsd
      · rcases hT x hx2 with h1 | h1
        · exact Or.inl (msgsSent_of_log_append s s2 _ hl x h1)
        · rw [hsn] at h1
          cases h1
  · refine ⟨?_, ?_, ?_⟩
    · intro m hm
      rw [hl]
      exact hW m (hsd ▸ hm)
    · rw [hl]
      exact hP
    · intro x hx
      rw [hu, common.UnAcked.Remove_msgs] at hx
      rcases hT x (List.mem_of_mem_filter hx) with h1 | h1
      · exact Or.inl (msgsSent_of_log_append s s2 [] (by simp [hl]) x h1)
      · exact Or.inr (hsd ▸ h1)
  · refine ⟨?_, ?_, ?_⟩
    · intro m hm
      rw [hl]
      exact List.mem_append_left _ (hW m (hb m hm))
    · rw [hl]
      exact log_order_append s.log l hP (fun y hy => ⟨(hl2 y hy).1, hW y (hl2 y hy).2⟩)
    · intro x hx
      rw [hu] at hx
      rcases hT x hx with h1 | h1
      · exact Or.inl (msgsSent_of_log_append s s2 l hl x h1)
      · exact hf x h1

theorem run_deliveryOrdered (generateID : Nat → String) (ops : List Op) :
    ∀ s s3 : Source, s.deliveryOrdered → run generateID s ops = some s3 →
      s3.deliveryOrdered := by
  induction ops with
  | nil =>
    intro s s3 hinv hrun
    simp only [run] at hrun
    injection hrun with hrun
    exact hrun ▸ hinv
  | cons op ops ih =>
    intro s s3 hinv hrun
    obtain ⟨s2, hst, hrest⟩ := run_cons generateID s s3 op ops hrun
    exact ih s2 s3 (step_deliveryOrdered generateID s s2 op hinv hst) hrest

theorem new_deliveryOrdered (topics : List String) : (Source.new topics).deliveryOrdered := by
  refine ⟨?_, ?_, ?_⟩
  · intro m hm
    simp [Source.new] at hm
  · intro l1 l2 m h
    simp [Source.new] at h
  · intro x hx
    simp [Source.new, common.NewUnAcked] at hx

/-- C5 (the claim as stated fails before the push): on a new Source whose loop
has taken a message, `handleMsg` has added the message to the unacked set and
waits in the send on the unbuffered message channel. In that state nothing has
been sent on the message channel, `UnAcked()` lists the message, and `Ack` of
it returns no error and removes it, instead of the not-found sentinel with the
set unchanged. -/
theorem Ack_before_push_counterexample :
    run unaryID (Source.new ["topic.0"]) [.consume (.event (.Message sampleKafkaMessage))]
        = some sampleWaiting
      ∧ sampleWaiting.msgsSent = []
      ∧ (∀ x ∈ sampleWaiting.msgsSent, x.ID ≠ sampleMsg.ID)
      ∧ sampleWaiting.UnAcked = [sampleMsg]
      ∧ sampleWaiting.Ack sampleMsg = ({ sampleWaiting with unAcked := { msgs := [] } }, none)
      ∧ sampleWaiting.Ack sampleMsg ≠ (sampleWaiting, some .ErrAlreadyAcked) := by
  refine ⟨by decide, by decide, ?_, by decide, by decide, by decide⟩
  intro x hx
  have h : sampleWaiting.msgsSent = [] := by decide
  rw [h] at hx
  cases hx

/-- C5 (amended): `handleMsg` adds the message to the unacked set and then
sends it on the message channel, and the message is listed by `UnAcked()`
after it; in every execution the loop first adds the message and waits in the
send, the push is the taking of that send, and every message on the message
channel was added earlier. `Ack` and `Fail` are the same function. The first
`Ack` or `Fail` of a listed message returns no error, leaves no message with
its identifier listed and keeps every other message; on a message whose
identifier is not tracked they return the not-found sentinel and leave the
state unchanged, so a second call on the same message does. With distinct
generated identifiers, a message stays listed from its addition through every
run of operations in which no `Ack` or `Fail` names its identifier, and is
absent at the end of every run in which one does. In every state reached from
a new Source, `Ack` of a message whose identifier is neither that of a message
sent on the message channel nor that of the message whose send the loop waits
in returns the not-found sentinel and leaves the state unchanged. -/
theorem unacked_until_settled (generateID : Nat → String) :
    (∀ (s : Source) (k : KafkaMessage), s.msgChanClosed = false →
      ∃ s2, s.handleMsg generateID k = .ok s2
        ∧ s2.log = s.log ++
            [Action.unAckedAdd (NewSimpleMsg (generateID s.generated) k.value k.timestamp),
             Action.msgSend (NewSimpleMsg (generateID s.generated) k.value k.timestamp)]
        ∧ NewSimpleMsg (generateID s.generated) k.value k.timestamp ∈ s2.UnAcked)
    ∧ (∀ (s : Source) (m : Msg), s.Ack m = s.Fail m)
    ∧ (∀ (s : Source) (m : Msg), m ∈ s.UnAcked →
        (s.Ack m).2 = none
          ∧ (∀ x ∈ (s.Ack m).1.UnAcked, x.ID ≠ m.ID)
          ∧ (∀ x ∈ s.UnAcked, x.ID ≠ m.ID → x ∈ (s.Ack m).1.UnAcked))
    ∧ (∀ (s : Source) (m : Msg), (∀ x ∈ s.UnAcked, x.ID ≠ m.ID) →
        s.Ack m = (s, some .ErrAlreadyAcked))
    ∧ (∀ (s : Source) (m : Msg),
        (s.Ack m).1.Ack m = ((s.Ack m).1, some .ErrAlreadyAcked))
    ∧ (Function.Injective generateID →
        ∀ (s s2 s3 : Source) (k : KafkaMessage) (ops : List Op),
          step generateID s (.consume (.event (.Message k))) = some s2 →
          run generateID s2 ops = some s3 →
          ((∀ op ∈ ops, op.settles (generateID s.generated) = false) →
            NewSimpleMsg (generateID s.generated) k.value k.timestamp ∈ s3.UnAcked)
          ∧ ((∃ op ∈ ops, op.settles (generateID s.generated) = true) →
            ∀ x ∈ s3.UnAcked, x.ID ≠ generateID s.generated))
    ∧ (∀ (topics : List String) (ops : List Op) (s : Source) (m : Msg),
        run generateID (Source.new topics) ops = some s →
        (∀ x ∈ s.msgsSent, x.ID ≠ m.ID) →
        (∀ x, s.sending = some (Action.msgSend x) → x.ID ≠ m.ID) →
        s.Ack m = (s, some .ErrAlreadyAcked))
    ∧ (∀ (s s2 : Source) (k : KafkaMessage),
        step generateID s (.consume (.event (.Message k))) = some s2 →
        s2.log = s.log ++
            [Action.unAckedAdd (NewSimpleMsg (generateID s.generated) k.value k.timestamp)]
          ∧ s2.sending = some
              (Action.msgSend (NewSimpleMsg (generateID s.generated) k.value k.timestamp))
          ∧ NewSimpleMsg (generateID s.generated) k.value k.timestamp ∈ s2.UnAcked
          ∧ ∀ s3, step generateID s2 .receive = some s3 →
              s3.log = s2.log ++
                [Action.msgSend (NewSimpleMsg (generateID s.generated) k.value k.timestamp)]
              ∧ s3.UnAcked = s2.UnAcked ∧ s3.sending = none)
    ∧ (∀ (topics : List String) (ops : List Op) (s : Source),
        run generateID (Source.new topics) ops = some s →
        (∀ l1 l2 m, s.log = l1 ++ Action.msgSend m :: l2 → Action.unAckedAdd m ∈ l1)
          ∧ (∀ x ∈ s.UnAcked, x ∈ s.msgsSent ∨ s.sending = some (Action.msgSend x))) := by
  have hnot : ∀ (s : Source) (m : Msg), (∀ x ∈ s.UnAcked, x.ID ≠ m.ID) →
      s.Ack m = (s, some .ErrAlreadyAcked) := by
    intro s m h
    simp only [Source.Ack, common.UnAcked.Remove_of_not_tracked s.unAcked m h]
  have habsent : ∀ (s : Source) (m : Msg), ∀ x ∈ (s.Ack m).1.UnAcked, x.ID ≠ m.ID := by
    intro s m x hx
    simp only [Source.Ack, Source.UnAcked, common.UnAcked.List,
      common.UnAcked.Remove_msgs] at hx
    simpa using (List.mem_filter.mp hx).2
  have hbegin : ∀ (s s2 : Source) (k : KafkaMessage),
      step generateID s (.consume (.event (.Message k))) = some s2 →
      s2.unAcked = s.unAcked.Add (NewSimpleMsg (generateID s.generated) k.value k.timestamp)
        ∧ s2.generated = s.generated + 1
        ∧ s2.log = s.log ++
            [Action.unAckedAdd (NewSimpleMsg (generateID s.generated) k.value k.timestamp)]
        ∧ s2.sending = some
            (Action.msgSend (NewSimpleMsg (generateID s.generated) k.value k.timestamp)) := by
    intro s s2 k hst
    obtain ⟨_, _, rfl⟩ := step_consume_event generateID s s2 _ hst
    exact ⟨rfl, rfl, rfl, rfl⟩
  refine ⟨?_, fun _ _ => rfl, ?_, hnot, ?_, ?_, ?_, ?_, ?_⟩
  · intro s k hm
    refine ⟨_, handleMsg_ok generateID s k hm, rfl, ?_⟩
    exact common.UnAcked.mem_Add_self _ _
  · intro s m hm
    refine ⟨?_, habsent s m, ?_⟩
    · exact common.UnAcked.Remove_of_tracked s.unAcked m m hm rfl
    · intro x hx hne
      simp only [Source.Ack, Source.UnAcked, common.UnAcked.List, common.UnAcked.Remove_msgs]
      simp only [List.mem_filter, decide_eq_true_eq]
      exact ⟨hx, hne⟩
  · intro s m
    exact hnot _ m (habsent s m)
  · intro hinj s s2 s3 k ops hst hrun
    obtain ⟨hu, hg, _, _⟩ := hbegin s s2 k hst
    refine ⟨?_, ?_⟩
    · intro hset
      refine run_stays_listed generateID hinj _ s.generated rfl ops s2 s3 ?_ (by omega) hrun
        hset
      rw [hu]
      exact common.UnAcked.mem_Add_self _ _
    · intro hex
      exact run_settled_absent generateID hinj s.generated ops s2 s3 (by omega) hrun hex
  · intro topics ops s m hrun hsent hwait
    refine hnot s m ?_
    intro x hx
    have hinv := run_deliveryOrdered generateID ops (Source.new topics) s
      (new_deliveryOrdered topics) hrun
    rcases hinv.2.2 x hx with h1 | h1
    · exact hsent x h1
    · exact hwait x h1
  · intro s s2 k hst
    obtain ⟨hu, _, hl, hsd⟩ := hbegin s s2 k hst
    refine ⟨hl, hsd, ?_, ?_⟩
    · show _ ∈ s2.unAcked.msgs
      rw [hu]
      exact common.UnAcked.mem_Add_self _ _
    · intro s3 hrec
      obtain ⟨a, ha, hc⟩ := step_receive generateID s2 s3 hrec
      rw [hsd] at ha
      injection ha with ha
      subst ha
      obtain ⟨_, _, _, _, e5, e6, _, _, e9⟩ := completeSend_flags _ s3 _ hc
      refine ⟨e9 _ rfl, ?_, e5⟩
      show s3.unAcked.msgs = s2.unAcked.msgs
      rw [e6]
  · intro topics ops s hrun
    have hinv := run_deliveryOrdered generateID ops (Source.new topics) s
      (new_deliveryOrdered topics) hrun
    exact ⟨hinv.2.1, hinv.2.2⟩

theorem unaryID_injective : Function.Injective unaryID := by
  intro a b h
  have hlen := congrArg String.length h
  simpa [unaryID, String.length] using hlen

/-- Witness for C5: the first message is taken and received, a second one is
taken and received, and then the first is acknowledged; no message with the
first identifier is listed at the end. -/
theorem unacked_until_settled_witness :
    ∃ s2 s3,
      step unaryID (Source.new ["topic.0"]) (.consume (.event (.Message sampleKafkaMessage)))
        = some s2
      ∧ run unaryID s2
          [.receive, .consume (.event (.Message sampleKafkaMessage)), .receive, .Ack sampleMsg]
        = some s3
      ∧ s3.UnAcked = [NewSimpleMsg "xx" [104, 105] 1500000000]
      ∧ ∀ x ∈ s3.UnAcked, x.ID ≠ unaryID 0 :=
  ⟨_, _, rfl, rfl, by decide,
    ((unacked_until_settled unaryID).2.2.2.2.2.1 unaryID_injective (Source.new ["topic.0"]) _ _
      sampleKafkaMessage
      [.receive, .consume (.event (.Message sampleKafkaMessage)), .receive, .Ack sampleMsg]
      rfl rfl).2 ⟨.Ack sampleMsg, by simp, by decide⟩⟩

end Frafka
